import Mathlib

/-!
# Verification of the scene-graph pointer-event dispatcher
  (packages/fiber/src/core/events.ts)

Shallow embedding of the event dispatcher. Objects of the external scene
graph are identified by natural numbers; the graph supplies a `parent`
link and an optional `__r3f` instance record (handler set plus the
`eventCount` used to skip empty nodes). Handler bodies are abstracted to
their only dispatcher-visible effect among the verified properties: an
optional call to `stopPropagation`, modelled by the per-object flag
`Env.stops`. Ancestor walks follow raw parent links in the source, so
every walk here takes explicit fuel; theorems that need genuine
termination carry a hypothesis that the parent chain reaches the root
within the given fuel. The raycast primitive, the `raycaster.filter`
hook and the press-to-release distance are external collaborators and
are passed in as parameters. Observable behaviour (handler invocations,
miss notifications, hover bookkeeping, native capture release) is
collected in a `Call` trace.
-/

/-- Event kinds handled by the dispatcher (`EventHandlers` keys). -/
inductive EvName where
  | onClick | onContextMenu | onDoubleClick | onWheel
  | onPointerDown | onPointerUp | onPointerLeave | onPointerMove
  | onPointerCancel | onLostPointerCapture
  | onPointerOver | onPointerEnter | onPointerOut | onPointerMissed
  deriving DecidableEq, Repr

/-- DOM event phases used by the bubbling loop (`AT_TARGET` / `BUBBLING_PHASE`). -/
inductive Phase where
  | atTarget
  | bubbling
  deriving DecidableEq, Repr

/-- An intersection record. `eventObject` is `none` on raw raycaster output
and set during normalization (`intersect`) or at capture time. -/
structure Hit where
  object : Nat
  eventObject : Option Nat
  index : Option Nat
  instanceId : Option Nat
  deriving DecidableEq, Repr

/-- The `__r3f` instance attached to an interactive object: its handler set
and the handler count the dispatcher uses to skip empty nodes. -/
structure R3fInstance where
  eventCount : Nat
  handlers : List EvName
  deriving DecidableEq, Repr

/-- The external scene graph and handler registry, plus the abstraction of
handler bodies: `stops o` says whether a real handler invoked at `o` calls
`stopPropagation` on its synthetic event. -/
structure Env where
  parent : Nat → Option Nat
  inst : Nat → Option R3fInstance
  stops : Nat → Bool

/-- The value stored in `internal.hovered`: the fields of the stored
synthetic event that the dispatcher later reads back. -/
structure HoverData where
  object : Nat
  eventObject : Nat
  index : Option Nat
  instanceId : Option Nat
  deriving DecidableEq, Repr

/-- `PointerCaptureData`: the capture-time intersection and the DOM target
whose native capture must be released. -/
structure CaptureData where
  intersection : Hit
  domTarget : Nat
  deriving DecidableEq, Repr

/-- The mutable registry (`store.getState().internal`). Maps are modelled as
association lists in insertion order, mirroring JS `Map` iteration. -/
structure Internal where
  interaction : List Nat
  hovered : List (Nat × HoverData)
  capturedMap : List (Nat × CaptureData)
  initialClick : Int × Int
  initialHit : Option Nat
  deriving DecidableEq, Repr

/-- A raw input event: `pointerId` is present exactly on `PointerEvent`s
(`isPointerEvent` tests `'pointerId' in event`). -/
structure NativeEvent where
  pointerId : Option Nat
  offsetX : Int
  offsetY : Int
  deriving DecidableEq, Repr

/-- Observable actions of one dispatch, in order of occurrence. -/
inductive Call where
  /-- a real handler invoked through the bubbling loop -/
  | handler (target : Nat) (name : EvName) (phase : Phase)
  /-- an `onPointerMissed` handler invoked through `pointerMissed` -/
  | missed (target : Nat)
  /-- the root `onPointerMissed` callback from state -/
  | rootMissed
  /-- an `onPointerOut`/`onPointerLeave` handler invoked by `cancelPointer` -/
  | cancelHandler (target : Nat) (name : EvName)
  /-- `internal.hovered.set(pointerId, event)` performed by the move callback -/
  | hoverSet (pointerId : Nat) (target : Nat)
  /-- `domTarget.releasePointerCapture(pointerId)` -/
  | nativeRelease (domTarget : Nat) (pointerId : Nat)
  deriving DecidableEq, Repr

/-! ## Map helpers (JS `Map` on association lists, insertion order) -/

/-- JS `Map.get`. -/
def mapGet (m : List (Nat × α)) (k : Nat) : Option α :=
  (m.find? (fun kv => kv.1 == k)).map (·.2)

/-- JS `Map.set`: updates in place if present, else appends. -/
def mapSet (k : Nat) (v : α) (m : List (Nat × α)) : List (Nat × α) :=
  if m.any (fun kv => kv.1 == k) then
    m.map (fun kv => if kv.1 == k then (k, v) else kv)
  else m ++ [(k, v)]

/-- JS `Map.delete`. -/
def mapDelete (k : Nat) (m : List (Nat × α)) : List (Nat × α) :=
  m.filter (fun kv => kv.1 != k)

/-! ## Helper views on the environment -/

/-- `(obj.__r3f?.eventCount) ?? 0`. -/
def eventCountOf (env : Env) (o : Nat) : Nat :=
  match env.inst o with
  | none => 0
  | some i => i.eventCount

/-- `obj.__r3f?.handlers[name]` is defined. -/
def hasHandler (env : Env) (o : Nat) (n : EvName) : Bool :=
  match env.inst o with
  | none => false
  | some i => n ∈ i.handlers

/-! ## Source functions -/

/-- JS string coercion of a possibly-`undefined` numeric field
(`'' + undefined` is `"undefined"`). -/
def jsField : Option Nat → String
  | none => "undefined"
  | some n => toString n

/-- `event.eventObject || event.object` (identity whose uuid keys the dedup). -/
def targetObj (h : Hit) : Nat :=
  match h.eventObject with
  | none => h.object
  | some o => o

/-- `makeId`: `(event.eventObject || event.object).uuid + '/' + event.index
+ event.instanceId` with JS string concatenation. -/
def makeId (h : Hit) : String :=
  toString (targetObj h) ++ "/" ++ jsField h.index ++ jsField h.instanceId

/-- `isAncestor(ancestor, child)`: walk `child.parent` links until the
ancestor or `null`. The source loop has no guard, so the embedding takes
fuel; `none` means the walk did not finish within the fuel. -/
def isAncestor (env : Env) : Nat → Nat → Option Nat → Option Bool
  | _, _, none => some false
  | 0, _, some _ => none
  | fuel + 1, anc, some c =>
      if c = anc then some true else isAncestor env fuel anc (env.parent c)

/-- Boolean view of `isAncestor` used inside the dispatch pipeline. -/
def isAncestorB (env : Env) (fuel : Nat) (anc : Nat) (c : Option Nat) : Bool :=
  (isAncestor env fuel anc c).getD false

/-- Iterate the parent link. `iterParent env n s = none` says the chain
starting at `s` reaches the root within `n` steps. -/
def iterParent (env : Env) : Nat → Option Nat → Option Nat
  | 0, s => s
  | fuel + 1, s => iterParent env fuel (s.bind env.parent)

/-- The dedup filter of `intersect`, with the mutable `seen` set made
explicit: keep a hit iff its `makeId` has not been seen, recording ids of
kept hits. -/
def dedupAux : List Hit → List String → List Hit
  | [], _ => []
  | h :: rest, seen =>
      if seen.contains (makeId h) then dedupAux rest seen
      else h :: dedupAux rest (makeId h :: seen)

/-- Deduplication of raycast output as performed inside `intersect`. -/
def dedupHits (l : List Hit) : List Hit :=
  dedupAux l []

/-- `filterPointerEvents`: keep objects with at least one pointer-family
handler. Defined in the source but never invoked by `intersect`. -/
def filterPointerEvents (env : Env) (objects : List Nat) : List Nat :=
  objects.filter (fun o =>
    [EvName.onPointerMove, .onPointerOver, .onPointerEnter,
     .onPointerOut, .onPointerLeave].any (fun n => hasHandler env o n))

/-- `intersect()`: returns `[]` when raycasting is disabled; otherwise
raycasts the full `internal.interaction` list, filters duplicates by
`makeId`, applies the optional user `raycaster.filter` hook, and annotates
each record with `eventObject = object`. `rc` is the external
`raycaster.intersectObjects(·, true)` primitive. -/
def intersect (enabled : Bool) (interaction : List Nat)
    (rc : List Nat → List Hit) (filt : Option (List Hit → List Hit)) : List Hit :=
  if !enabled then []
  else
    let deduped := dedupHits (rc interaction)
    let filtered :=
      match filt with
      | some f => f deduped
      | none => deduped
    filtered.map (fun h => { h with eventObject := some h.object })

/-- `patchIntersects`: if the event is a pointer event and its pointer has
a capture entry, unshift the stored capture intersection. -/
def patchIntersects (st : Internal) (ev : NativeEvent) (intersections : List Hit) :
    List Hit :=
  match ev.pointerId with
  | none => intersections
  | some pid =>
      match mapGet st.capturedMap pid with
      | some cd => cd.intersection :: intersections
      | none => intersections

/-- `releaseInternalPointerCapture`: release iff something is captured for
the pointer and either no object is given or it is the captured target.
Returns the updated map and the native release calls. -/
def releaseInternalPointerCapture (capturedMap : List (Nat × CaptureData))
    (obj : Option Nat) (captureData : Option CaptureData) (pointerId : Nat) :
    List (Nat × CaptureData) × List Call :=
  let cd :=
    match captureData with
    | some c => some c
    | none => mapGet capturedMap pointerId
  match cd with
  | none => (capturedMap, [])
  | some c =>
      if obj = none ∨ obj = c.intersection.eventObject then
        (mapDelete pointerId capturedMap, [Call.nativeRelease c.domTarget pointerId])
      else (capturedMap, [])

/-- The `capturedMap.forEach` body of `removeInteractivity`, iterating the
entries in order while threading the (possibly shrinking) map. -/
def purgeCaptures (obj : Nat) :
    List (Nat × CaptureData) → List (Nat × CaptureData) →
      List (Nat × CaptureData) × List Call
  | [], m => (m, [])
  | (pid, cd) :: rest, m =>
      let step := releaseInternalPointerCapture m (some obj) (some cd) pid
      let next := purgeCaptures obj rest step.1
      (next.1, step.2 ++ next.2)

/-- `removeInteractivity(store, object)`: removes every trace of the object
from the registry and releases any native captures it held. -/
def removeInteractivity (st : Internal) (object : Nat) : List Call × Internal :=
  let interaction := st.interaction.filter (fun o => o != object)
  let initialHit := if st.initialHit = some object then none else st.initialHit
  let hovered := st.hovered.filter (fun kv =>
    !(kv.2.eventObject == object || kv.2.object == object))
  let purged := purgeCaptures object st.capturedMap st.capturedMap
  (purged.2,
   { st with interaction := interaction, initialHit := initialHit,
             hovered := hovered, capturedMap := purged.1 })

/-- `pointerMissed(event, objects)`: invoke `onPointerMissed` on every
listed object that defines it, in list order. -/
def pointerMissed (env : Env) (objects : List Nat) : List Call :=
  objects.filterMap (fun o =>
    if hasHandler env o .onPointerMissed then some (Call.missed o) else none)

/-- The ancestor walk of `cancelPointer`: from the previously hovered
`object` up the parent links, invoking `onPointerOut` then `onPointerLeave`
on every node defining either. Fueled like `isAncestor`. -/
def cancelWalk (env : Env) : Nat → Option Nat → List Call
  | 0, _ => []
  | _, none => []
  | fuel + 1, some o =>
      (match env.inst o with
       | none => []
       | some i =>
           if .onPointerOut ∈ i.handlers ∨ .onPointerLeave ∈ i.handlers then
             (if .onPointerOut ∈ i.handlers then [Call.cancelHandler o .onPointerOut] else [])
               ++ (if .onPointerLeave ∈ i.handlers then [Call.cancelHandler o .onPointerLeave] else [])
           else [])
        ++ cancelWalk env fuel (env.parent o)

/-- `cancelPointer(pointerId, hits)`: if the pointer has a hover entry and
either nothing was hit or the top hit differs from the stored entry in
object, face index or instance index, delete the entry and fire the
out/leave chain. -/
def cancelPointer (env : Env) (afuel : Nat) (st : Internal) (pointerId : Nat)
    (hits : List Hit) : List Call × Internal :=
  match mapGet st.hovered pointerId with
  | none => ([], st)
  | some hov =>
      let differs :=
        match hits with
        | [] => true
        | h :: _ =>
            h.object ≠ hov.object ∨ h.index ≠ hov.index ∨ h.instanceId ≠ hov.instanceId
      if differs then
        (cancelWalk env afuel (some hov.object),
         { st with hovered := mapDelete pointerId st.hovered })
      else ([], st)

/-! ## Bubbling dispatch (`handleIntersects` and the `handlePointer` callback) -/

/-- Constant per-dispatch data read by the `handlePointer` callback closure:
the event name and its classification, the pointer id, the fields of
`intersections[0]` that stay fixed as `eventObject` walks up, the registry
snapshot the callback reads, and the fuel for `isAncestor` walks. -/
structure Ctx where
  name : EvName
  isMove : Bool
  isClick : Bool
  isEnter : Bool
  pid : Nat
  hitObject : Nat
  hitIndex : Option Nat
  hitInstanceId : Option Nat
  initialHit : Option Nat
  interaction : List Nat
  afuel : Nat

/-- The calls the `handlePointer` callback makes at one bubble target
(lines 381-425 of events.ts). -/
def cbCalls (env : Env) (ctx : Ctx) (t : Nat) (ph : Phase) : List Call :=
  match env.inst t with
  | none => []
  | some i =>
      if i.eventCount = 0 then []
      else if ctx.isMove then
        if ctx.isEnter then
          (if ph = .atTarget then [Call.hoverSet ctx.pid t] else [])
            ++ (if .onPointerOver ∈ i.handlers then [Call.handler t .onPointerOver ph] else [])
            ++ (if .onPointerEnter ∈ i.handlers then [Call.handler t .onPointerEnter ph] else [])
        else
          if .onPointerMove ∈ i.handlers then [Call.handler t .onPointerMove ph] else []
      else
        if ctx.name ∈ i.handlers then
          if !ctx.isClick ∨ ctx.initialHit = some ctx.hitObject then
            pointerMissed env (ctx.interaction.filter
                (fun o => !isAncestorB env ctx.afuel o ctx.initialHit))
              ++ [Call.handler t ctx.name ph]
          else []
        else []

/-- The hover-map update the callback performs at one bubble target:
`internal.hovered.set(pointerId, event)` on an entering move at target
phase. -/
def cbHov (env : Env) (ctx : Ctx) (t : Nat) (ph : Phase)
    (hov : List (Nat × HoverData)) : List (Nat × HoverData) :=
  match env.inst t with
  | none => hov
  | some i =>
      if i.eventCount ≠ 0 ∧ ctx.isMove ∧ ctx.isEnter ∧ ph = .atTarget then
        mapSet ctx.pid
          ⟨ctx.hitObject, t, ctx.hitIndex, ctx.hitInstanceId⟩ hov
      else hov

/-- Whether the shared `stopped` flag is set during the callback at `t`:
`Env.stops t` can only take effect if a real handler was invoked there. -/
def cbStop (env : Env) (ctx : Ctx) (t : Nat) (ph : Phase) : Bool :=
  env.stops t && (cbCalls env ctx t ph).any (fun c =>
    match c with
    | .handler .. => true
    | _ => false)

/-- The `for` loop of `handleIntersects`: starting from
`intersections[0].eventObject` at target phase, visit each parent in turn
(bubbling phase), skipping targets with `eventCount = 0` but still
advancing, invoking the callback otherwise, and stopping as soon as a
callback sets the shared `stopped` flag. Records one `(target, phase,
calls)` entry per callback invocation and threads the hover map. -/
def bubbleLoop (env : Env) (ctx : Ctx) :
    Nat → Option Nat → Phase → List (Nat × HoverData) →
      List (Nat × Phase × List Call) × List (Nat × HoverData)
  | 0, _, _, hov => ([], hov)
  | _, none, _, hov => ([], hov)
  | fuel + 1, some t, ph, hov =>
      if eventCountOf env t = 0 then
        bubbleLoop env ctx fuel (env.parent t) .bubbling hov
      else
        let hov' := cbHov env ctx t ph hov
        if cbStop env ctx t ph then ([(t, ph, cbCalls env ctx t ph)], hov')
        else
          let rest := bubbleLoop env ctx fuel (env.parent t) .bubbling hov'
          ((t, ph, cbCalls env ctx t ph) :: rest.1, rest.2)

/-- `handleIntersects`: does nothing on an empty intersection list,
otherwise runs the bubble loop from the top intersection's event target. -/
def handleIntersects (env : Env) (ctx : Ctx) (fuel : Nat) (hits : List Hit)
    (hov : List (Nat × HoverData)) :
    List (Nat × Phase × List Call) × List (Nat × HoverData) :=
  match hits with
  | [] => ([], hov)
  | h :: _ => bubbleLoop env ctx fuel h.eventObject .atTarget hov

/-- External parameters of one dispatch: the event name, the raycast
primitive, the raycaster toggles and hooks, the (external, floating-point)
press-to-release distance, the presence of the root `onPointerMissed`
callback, and the walk fuels. -/
structure DispatchArgs where
  name : EvName
  rc : List Nat → List Hit
  enabled : Bool
  filt : Option (List Hit → List Hit)
  distFn : Int × Int → Int × Int → Nat
  rootMissed : Bool
  fuel : Nat
  afuel : Nat

/-- Event names classified as click events by `handlePointer`. -/
def isClickName (n : EvName) : Bool :=
  n == .onClick || n == .onContextMenu || n == .onDoubleClick

/-- The intersection list one dispatch works on:
`patchIntersects(intersect(), event)`. -/
def dispatchHits (a : DispatchArgs) (st : Internal) (ev : NativeEvent) : List Hit :=
  patchIntersects st ev (intersect a.enabled st.interaction a.rc a.filt)

/-- Press bookkeeping: on pointer-down, record the click position and the
top hit's object (`undefined` on a miss) as the initial hit. -/
def recordDown (a : DispatchArgs) (st : Internal) (ev : NativeEvent)
    (hits : List Hit) : Internal :=
  if a.name == EvName.onPointerDown then
    { st with initialClick := (ev.offsetX, ev.offsetY),
              initialHit := (hits.head?).map (·.object) }
  else st

/-- The per-dispatch data captured by the `handlePointer` callback closure,
taken after `cancelPointer` ran (state `st2`). -/
def dispatchCtx (a : DispatchArgs) (st2 : Internal) (hits : List Hit)
    (pid : Nat) : Ctx :=
  { name := a.name,
    isMove := a.name == EvName.onPointerMove,
    isClick := isClickName a.name,
    isEnter := (a.name == EvName.onPointerMove)
      && ((mapGet st2.hovered pid).map (·.object) != (hits.head?).map (·.object)),
    pid := pid,
    hitObject := ((hits.head?).map (·.object)).getD 0,
    hitIndex := (hits.head?).bind (·.index),
    hitInstanceId := (hits.head?).bind (·.instanceId),
    initialHit := st2.initialHit, interaction := st2.interaction,
    afuel := a.afuel }

/-- The generic branch of `handlePointer` (every name except
`onPointerLeave`, `onPointerCancel`, `onLostPointerCapture`): raycast and
patch captures, record press data on pointer-down, fire the zero-hit click
miss, run `cancelPointer` and the hover bookkeeping on moves, then bubble.
Returns the flattened call trace and the updated registry. -/
def handlePointer (env : Env) (a : DispatchArgs) (st : Internal)
    (ev : NativeEvent) : List Call × Internal :=
  let hits := dispatchHits a st ev
  let delta :=
    if isClickName a.name then a.distFn (ev.offsetX, ev.offsetY) st.initialClick else 0
  let st1 := recordDown a st ev hits
  let missCalls :=
    if isClickName a.name && hits.isEmpty && decide (delta ≤ 2) then
      pointerMissed env st1.interaction
        ++ (if a.rootMissed then [Call.rootMissed] else [])
    else []
  let pid := ev.pointerId.getD 0
  let cancelled :=
    if a.name == EvName.onPointerMove then cancelPointer env a.afuel st1 pid hits
    else ([], st1)
  let st2 := cancelled.2
  let bubbled := handleIntersects env (dispatchCtx a st2 hits pid) a.fuel hits st2.hovered
  (missCalls ++ cancelled.1 ++ (bubbled.1.map (·.2.2)).flatten,
   { st2 with hovered := bubbled.2 })

/-! ## Closed forms for the bubbling loop -/

/-- Truncate a list after the first element satisfying `p` (that element is
kept): the shape of a bubble chain cut short by `stopPropagation`. -/
def truncIncl (p : α → Bool) : List α → List α
  | [] => []
  | a :: rest => if p a then [a] else a :: truncIncl p rest

/-- The ancestor chain of the starting event target paired with the phase
each node is visited in: the head at the starting phase, every following
node at bubbling phase. -/
def phasedChain (env : Env) : Nat → Option Nat → Phase → List (Nat × Phase)
  | 0, _, _ => []
  | _, none, _ => []
  | fuel + 1, some o, ph => (o, ph) :: phasedChain env fuel (env.parent o) .bubbling

/-- The chain nodes that actually receive a callback: those with a nonzero
handler count. -/
def deliveredChain (env : Env) (fuel : Nat) (s : Option Nat) (ph : Phase) :
    List (Nat × Phase) :=
  (phasedChain env fuel s ph).filter (fun x => eventCountOf env x.1 != 0)

/-- The delivery list of one dispatch in closed form: the handler-bearing
chain truncated after the first target whose callback stops propagation. -/
def deliveries (env : Env) (ctx : Ctx) (fuel : Nat) (s : Option Nat) (ph : Phase) :
    List (Nat × Phase) :=
  truncIncl (fun x => cbStop env ctx x.1 x.2) (deliveredChain env fuel s ph)

theorem bubbleLoop_spec (env : Env) (ctx : Ctx) :
    ∀ fuel s ph hov,
      bubbleLoop env ctx fuel s ph hov =
        ((deliveries env ctx fuel s ph).map
           (fun x => (x.1, x.2, cbCalls env ctx x.1 x.2)),
         (deliveries env ctx fuel s ph).foldl
           (fun h x => cbHov env ctx x.1 x.2 h) hov) := by
  intro fuel
  induction fuel with
  | zero =>
      intro s ph hov
      cases s <;> simp [bubbleLoop, deliveries, deliveredChain, phasedChain, truncIncl]
  | succ f ih =>
      intro s ph hov
      cases s with
      | none => simp [bubbleLoop, deliveries, deliveredChain, phasedChain, truncIncl]
      | some t =>
          by_cases hec : eventCountOf env t = 0
          · have hq : (eventCountOf env t != 0) = false := by simp [hec]
            have hd : deliveries env ctx (f + 1) (some t) ph
                = deliveries env ctx f (env.parent t) .bubbling := by
              simp [deliveries, deliveredChain, phasedChain, List.filter_cons, hq]
            have hl : bubbleLoop env ctx (f + 1) (some t) ph hov
                = bubbleLoop env ctx f (env.parent t) .bubbling hov := by
              simp [bubbleLoop, hec]
            rw [hl, hd]
            exact ih _ _ _
          · have hq : (eventCountOf env t != 0) = true := by simp [hec]
            by_cases hst : cbStop env ctx t ph = true
            · have hd : deliveries env ctx (f + 1) (some t) ph = [(t, ph)] := by
                simp [deliveries, deliveredChain, phasedChain, List.filter_cons, hq,
                  truncIncl, hst]
              have hl : bubbleLoop env ctx (f + 1) (some t) ph hov
                  = ([(t, ph, cbCalls env ctx t ph)], cbHov env ctx t ph hov) := by
                simp [bubbleLoop, hec, hst]
              rw [hl, hd]
              simp
            · have hst' : cbStop env ctx t ph = false := by
                simpa using hst
              have hd : deliveries env ctx (f + 1) (some t) ph
                  = (t, ph) :: deliveries env ctx f (env.parent t) .bubbling := by
                simp [deliveries, deliveredChain, phasedChain, List.filter_cons, hq,
                  truncIncl, hst']
              have hl : bubbleLoop env ctx (f + 1) (some t) ph hov
                  = ((t, ph, cbCalls env ctx t ph)
                        :: (bubbleLoop env ctx f (env.parent t) .bubbling
                              (cbHov env ctx t ph hov)).1,
                     (bubbleLoop env ctx f (env.parent t) .bubbling
                        (cbHov env ctx t ph hov)).2) := by
                simp [bubbleLoop, hec, hst']
              rw [hl, hd, ih (env.parent t) .bubbling (cbHov env ctx t ph hov)]
              simp

/-! ## Deduplication lemmas -/

theorem dedupAux_cons_mem (h : Hit) (rest : List Hit) (seen : List String)
    (hc : makeId h ∈ seen) :
    dedupAux (h :: rest) seen = dedupAux rest seen := by
  rw [dedupAux, if_pos (by simpa using hc)]

theorem dedupAux_cons_not_mem (h : Hit) (rest : List Hit) (seen : List String)
    (hc : makeId h ∉ seen) :
    dedupAux (h :: rest) seen = h :: dedupAux rest (makeId h :: seen) := by
  rw [dedupAux, if_neg (by simpa using hc)]

theorem dedupAux_sublist : ∀ (l : List Hit) (seen : List String),
    (dedupAux l seen).Sublist l := by
  intro l
  induction l with
  | nil => intro seen; simp [dedupAux]
  | cons h rest ih =>
      intro seen
      by_cases hc : makeId h ∈ seen
      · rw [dedupAux_cons_mem h rest seen hc]
        exact (ih seen).cons h
      · rw [dedupAux_cons_not_mem h rest seen hc]
        exact (ih (makeId h :: seen)).cons₂ h

theorem dedupAux_first : ∀ (l : List Hit) (seen : List String) (b : Hit),
    b ∈ dedupAux l seen →
      makeId b ∉ seen ∧ l.find? (fun a => makeId a == makeId b) = some b := by
  intro l
  induction l with
  | nil => intro seen b hb; simp [dedupAux] at hb
  | cons h rest ih =>
      intro seen b hb
      by_cases hc : makeId h ∈ seen
      · rw [dedupAux_cons_mem h rest seen hc] at hb
        obtain ⟨h1, h2⟩ := ih seen b hb
        have hne : (makeId h == makeId b) = false := by
          by_contra hx
          have hx' : makeId h = makeId b := eq_of_beq (by simpa using hx)
          exact h1 (hx' ▸ hc)
        refine ⟨h1, ?_⟩
        rw [List.find?_cons, hne]
        exact h2
      · rw [dedupAux_cons_not_mem h rest seen hc] at hb
        rcases List.mem_cons.mp hb with hbh | hbt
        · subst hbh
          exact ⟨hc, by rw [List.find?_cons, beq_self_eq_true]⟩
        · obtain ⟨h1, h2⟩ := ih (makeId h :: seen) b hbt
          have hne : makeId b ≠ makeId h := fun hx => h1 (by simp [hx])
          have hns : makeId b ∉ seen := fun hx => h1 (by simp [hx])
          have hne' : (makeId h == makeId b) = false := by
            simpa using fun hx => hne hx.symm
          refine ⟨hns, ?_⟩
          rw [List.find?_cons, hne']
          exact h2

theorem dedupAux_covers : ∀ (l : List Hit) (seen : List String) (a : Hit),
    a ∈ l → makeId a ∉ seen →
      ∃ b ∈ dedupAux l seen, makeId b = makeId a := by
  intro l
  induction l with
  | nil => intro seen a ha; simp at ha
  | cons h rest ih =>
      intro seen a ha hs
      by_cases hc : makeId h ∈ seen
      · rw [dedupAux_cons_mem h rest seen hc]
        rcases List.mem_cons.mp ha with hah | hat
        · subst hah
          exact absurd hc hs
        · exact ih seen a hat hs
      · rw [dedupAux_cons_not_mem h rest seen hc]
        rcases List.mem_cons.mp ha with hah | hat
        · subst hah
          exact ⟨a, List.mem_cons_self a _, rfl⟩
        · by_cases heq : makeId h = makeId a
          · exact ⟨h, List.mem_cons_self h _, heq⟩
          · have hs' : makeId a ∉ makeId h :: seen := by
              intro hx
              rcases List.mem_cons.mp hx with hx1 | hx2
              · exact heq hx1.symm
              · exact hs hx2
            obtain ⟨b, hb1, hb2⟩ := ih (makeId h :: seen) a hat hs'
            exact ⟨b, List.mem_cons_of_mem h hb1, hb2⟩

theorem dedupAux_pairwise : ∀ (l : List Hit) (seen : List String),
    (dedupAux l seen).Pairwise (fun a b => makeId a ≠ makeId b) := by
  intro l
  induction l with
  | nil => intro seen; simp [dedupAux]
  | cons h rest ih =>
      intro seen
      by_cases hc : makeId h ∈ seen
      · rw [dedupAux_cons_mem h rest seen hc]
        exact ih seen
      · rw [dedupAux_cons_not_mem h rest seen hc]
        refine List.Pairwise.cons ?_ (ih (makeId h :: seen))
        intro b hb heq
        obtain ⟨h1, _⟩ := dedupAux_first rest (makeId h :: seen) b hb
        exact h1 (by simp [heq])

/-- C5: among the raw raycast hits of one dispatch, any two hits with equal
(event-target identity, face/vertex index, instance index) triples collapse
to one record; the kept record is the first occurrence of its dedup id, and
deduplication preserves first-seen order (the output is a sublist of the
input); every input hit is represented by the kept first occurrence of its
id. -/
theorem C5_dedup_collapses_equal_triples (l : List Hit) :
    (dedupHits l).Sublist l
    ∧ (∀ b ∈ dedupHits l, l.find? (fun a => makeId a == makeId b) = some b)
    ∧ (∀ a ∈ l, ∃ b ∈ dedupHits l, makeId b = makeId a)
    ∧ (dedupHits l).Pairwise (fun a b =>
        ¬(targetObj a = targetObj b ∧ a.index = b.index ∧ a.instanceId = b.instanceId))
    ∧ (∀ a b : Hit, targetObj a = targetObj b → a.index = b.index →
        a.instanceId = b.instanceId → makeId a = makeId b) := by
  have htriple : ∀ a b : Hit, targetObj a = targetObj b → a.index = b.index →
      a.instanceId = b.instanceId → makeId a = makeId b := by
    intro a b h1 h2 h3
    unfold makeId
    rw [h1, h2, h3]
  refine ⟨dedupAux_sublist l [], ?_, ?_, ?_, htriple⟩
  · intro b hb
    exact (dedupAux_first l [] b hb).2
  · intro a ha
    exact dedupAux_covers l [] a ha (by simp)
  · have hp := dedupAux_pairwise l []
    refine List.Pairwise.imp ?_ hp
    intro a b hne ⟨h1, h2, h3⟩
    exact hne (htriple a b h1 h2 h3)

/-! ## Termination of the ancestor walks -/

/-- A deliberately cyclic scene graph: every object's parent is object 0,
so object 0 is its own parent. -/
def cycEnv : Env :=
  { parent := fun _ => some 0, inst := fun _ => none, stops := fun _ => false }

theorem cycEnv_isAncestor_none : ∀ fuel : Nat, isAncestor cycEnv fuel 1 (some 0) = none := by
  intro fuel
  induction fuel with
  | zero => rfl
  | succ f ih =>
      rw [isAncestor, if_neg (by decide)]
      exact ih

/-- C9 counterexample: the `isAncestor` walk has no maximum-depth or
visited-set guard; on a graph where object 0 is its own parent, the walk
testing whether 1 is an ancestor of 0 never finishes (no amount of fuel
makes it return), refuting the claim that every ancestor walk terminates
on every input graph. -/
theorem C9_counterexample_cyclic_walk_diverges :
    ¬ ∃ fuel : Nat, (isAncestor cycEnv fuel 1 (some 0)).isSome = true := by
  intro ⟨fuel, hf⟩
  rw [cycEnv_isAncestor_none fuel] at hf
  simp at hf

theorem iterParent_succ (env : Env) (n : Nat) (s : Option Nat) :
    iterParent env (n + 1) s = iterParent env n (s.bind env.parent) := rfl

theorem isAncestor_total_of_finite_chain (env : Env) (a : Nat) :
    ∀ (n : Nat) (s : Option Nat), iterParent env n s = none →
      (isAncestor env n a s).isSome = true := by
  intro n
  induction n with
  | zero =>
      intro s hs
      rw [show iterParent env 0 s = s from rfl] at hs
      subst hs
      rfl
  | succ m ih =>
      intro s hs
      cases s with
      | none => rfl
      | some c =>
          by_cases hca : c = a
          · rw [isAncestor, if_pos hca]
            rfl
          · rw [isAncestor, if_neg hca]
            exact ih (env.parent c) (by simpa [iterParent_succ] using hs)

theorem phasedChain_stable_of_finite_chain (env : Env) :
    ∀ (n : Nat) (s : Option Nat) (ph : Phase), iterParent env n s = none →
      ∀ m, n ≤ m → phasedChain env m s ph = phasedChain env n s ph := by
  intro n
  induction n with
  | zero =>
      intro s ph hs m _
      rw [show iterParent env 0 s = s from rfl] at hs
      subst hs
      cases m <;> rfl
  | succ k ih =>
      intro s ph hs m hm
      cases s with
      | none => cases m <;> rfl
      | some o =>
          obtain ⟨m', rfl⟩ : ∃ m', m = m' + 1 :=
            ⟨m - 1, by omega⟩
          rw [phasedChain, phasedChain]
          rw [ih (env.parent o) .bubbling (by simpa [iterParent_succ] using hs) m' (by omega)]

theorem cancelWalk_stable_of_finite_chain (env : Env) :
    ∀ (n : Nat) (s : Option Nat), iterParent env n s = none →
      ∀ m, n ≤ m → cancelWalk env m s = cancelWalk env n s := by
  intro n
  induction n with
  | zero =>
      intro s hs m _
      rw [show iterParent env 0 s = s from rfl] at hs
      subst hs
      cases m <;> rfl
  | succ k ih =>
      intro s hs m hm
      cases s with
      | none => cases m <;> rfl
      | some o =>
          obtain ⟨m', rfl⟩ : ∃ m', m = m' + 1 :=
            ⟨m - 1, by omega⟩
          rw [cancelWalk, cancelWalk]
          rw [ih (env.parent o) (by simpa [iterParent_succ] using hs) m' (by omega)]

/-- C9 amended: the ancestor walks (`isAncestor`, the bubbling chain of
`handleIntersects`, and the leave-chain walk of `cancelPointer`) carry no
maximum-depth or visited-set guard; they terminate exactly because the
parent chain is finite. When the chain from `s` reaches the root within
`n` steps, `isAncestor` completes within fuel `n`, and the bubbling chain
and the leave-chain walk are unchanged by any further fuel (the walks end
at the root, not at the fuel bound). On a cyclic graph they do not
terminate (see the counterexample). -/
theorem C9_walks_terminate_on_finite_chains (env : Env) (a n : Nat) (s : Option Nat)
    (ph : Phase) (hs : iterParent env n s = none) :
    (isAncestor env n a s).isSome = true
    ∧ (∀ m, n ≤ m → phasedChain env m s ph = phasedChain env n s ph)
    ∧ (∀ m, n ≤ m → cancelWalk env m s = cancelWalk env n s) :=
  ⟨isAncestor_total_of_finite_chain env a n s hs,
   phasedChain_stable_of_finite_chain env n s ph hs,
   cancelWalk_stable_of_finite_chain env n s hs⟩

/-- Witness for C9: a two-node chain (1's parent is 0, 0 has no parent)
satisfies the finiteness hypothesis with fuel 2, and the walks complete. -/
def chainEnv : Env :=
  { parent := fun o => if o = 1 then some 0 else none,
    inst := fun _ => none, stops := fun _ => false }

theorem C9_witness :
    iterParent chainEnv 2 (some 1) = none
    ∧ ((isAncestor chainEnv 2 0 (some 1)).isSome = true
        ∧ (∀ m, 2 ≤ m → phasedChain chainEnv m (some 1) .atTarget
            = phasedChain chainEnv 2 (some 1) .atTarget)
        ∧ (∀ m, 2 ≤ m → cancelWalk chainEnv m (some 1)
            = cancelWalk chainEnv 2 (some 1))) :=
  ⟨by decide,
   C9_walks_terminate_on_finite_chains chainEnv 0 2 (some 1) .atTarget (by decide)⟩

/-! ## Intersection normalization does not filter by pointer-family handlers -/

/-- A registry with one object, 0, whose only handler is `onClick` (no
pointer-family handler at all). -/
def clickOnlyEnv : Env :=
  { parent := fun _ => none,
    inst := fun o => if o = 0 then some ⟨1, [.onClick]⟩ else none,
    stops := fun _ => false }

/-- A raw raycast hit on object 0. -/
def hit0 : Hit := ⟨0, none, none, none⟩

/-- C6 counterexample: `filterPointerEvents` exists but `intersect` never
invokes it — the raycast candidates are the full interaction list. With
object 0 registered carrying only `onClick`, a raycaster that hits 0
produces a non-empty normalized intersection list, although
`filterPointerEvents` would have removed object 0 from the candidates. -/
theorem C6_counterexample_no_pointer_family_filter :
    intersect true [0] (fun cands => if cands.contains 0 then [hit0] else []) none
      = [{ hit0 with eventObject := some 0 }]
    ∧ filterPointerEvents clickOnlyEnv [0] = [] := by
  constructor
  · rfl
  · rfl

/-- C6 amended: `intersect` raycasts against the full interaction list and
filters only duplicates, so a registered object lacking every
pointer-family handler still produces hits whenever the raycaster reports
them; the unused `filterPointerEvents` would have removed such an object
from the candidate list. -/
theorem C6_objects_without_pointer_family_still_hit (env : Env)
    (interaction : List Nat) (o : Nat) (h : Hit) (rc : List Nat → List Hit)
    (hrc : h ∈ dedupHits (rc interaction)) (ho : h.object = o)
    (hfam : ∀ n ∈ [EvName.onPointerMove, .onPointerOver, .onPointerEnter,
        .onPointerOut, .onPointerLeave], hasHandler env o n = false) :
    { h with eventObject := some o } ∈ intersect true interaction rc none
    ∧ o ∉ filterPointerEvents env interaction := by
  constructor
  · subst ho
    unfold intersect
    simp only [Bool.not_true, Bool.false_eq_true, if_neg]
    exact List.mem_map.mpr ⟨h, hrc, rfl⟩
  · intro hmem
    unfold filterPointerEvents at hmem
    have := List.of_mem_filter hmem
    rw [List.any_eq_true] at this
    obtain ⟨n, hn, hhn⟩ := this
    rw [hfam n hn] at hhn
    exact Bool.false_ne_true hhn

/-- Witness for C6: the concrete one-object registry above. -/
theorem C6_witness :
    hit0 ∈ dedupHits ((fun cands => if cands.contains 0 then [hit0] else []) [0])
    ∧ ({ hit0 with eventObject := some 0 }
          ∈ intersect true [0] (fun cands => if cands.contains 0 then [hit0] else []) none
        ∧ 0 ∉ filterPointerEvents clickOnlyEnv [0]) :=
  ⟨by decide,
   C6_objects_without_pointer_family_still_hit clickOnlyEnv [0] 0 hit0
     (fun cands => if cands.contains 0 then [hit0] else []) (by decide) rfl (by decide)⟩

/-! ## Purge of captures on object removal -/

/-- Whether some entry of the list captures pointer `k` with target `obj`. -/
def isMatchedKey (obj : Nat) (l : List (Nat × CaptureData)) (k : Nat) : Bool :=
  l.any (fun kv => kv.1 == k && (kv.2.intersection.eventObject == some obj))

/-- The pointer id of a native release call. -/
def pidOfRelease : Call → Nat
  | .nativeRelease _ p => p
  | _ => 0

theorem release_step_match (m : List (Nat × CaptureData)) (obj pid : Nat)
    (cd : CaptureData) (hm : cd.intersection.eventObject = some obj) :
    releaseInternalPointerCapture m (some obj) (some cd) pid
      = (mapDelete pid m, [Call.nativeRelease cd.domTarget pid]) := by
  simp only [releaseInternalPointerCapture]
  rw [if_pos (Or.inr hm.symm)]

theorem release_step_nomatch (m : List (Nat × CaptureData)) (obj pid : Nat)
    (cd : CaptureData) (hm : cd.intersection.eventObject ≠ some obj) :
    releaseInternalPointerCapture m (some obj) (some cd) pid = (m, []) := by
  simp only [releaseInternalPointerCapture]
  rw [if_neg (by
    rintro (hx | hx)
    · exact Option.some_ne_none obj hx
    · exact hm hx.symm)]

theorem purgeCaptures_calls (obj : Nat) :
    ∀ (l m : List (Nat × CaptureData)),
      (purgeCaptures obj l m).2 = l.filterMap (fun kv =>
        if kv.2.intersection.eventObject = some obj then
          some (Call.nativeRelease kv.2.domTarget kv.1) else none) := by
  intro l
  induction l with
  | nil => intro m; rfl
  | cons kv rest ih =>
      intro m
      obtain ⟨pid, cd⟩ := kv
      by_cases hm : cd.intersection.eventObject = some obj
      · rw [purgeCaptures, release_step_match m obj pid cd hm]
        rw [List.filterMap_cons]
        simp only [hm, if_pos rfl]
        rw [ih (mapDelete pid m)]
        rfl
      · rw [purgeCaptures, release_step_nomatch m obj pid cd hm]
        rw [List.filterMap_cons]
        simp only [hm, if_neg, ite_eq_right_iff]
        rw [ih m]
        simp [hm]

theorem purgeCaptures_map (obj : Nat) :
    ∀ (l m : List (Nat × CaptureData)),
      (purgeCaptures obj l m).1
        = m.filter (fun kv => !isMatchedKey obj l kv.1) := by
  intro l
  induction l with
  | nil => intro m; simp [purgeCaptures, isMatchedKey]
  | cons kv rest ih =>
      intro m
      obtain ⟨pid, cd⟩ := kv
      by_cases hm : cd.intersection.eventObject = some obj
      · rw [purgeCaptures, release_step_match m obj pid cd hm]
        show (purgeCaptures obj rest (mapDelete pid m)).1 = _
        rw [ih (mapDelete pid m)]
        unfold mapDelete
        rw [List.filter_filter]
        refine List.filter_congr ?_
        intro kv2 _
        simp only [isMatchedKey, List.any_cons, Bool.not_or]
        have hcd : (cd.intersection.eventObject == some obj) = true := by
          simpa using hm
        rw [hcd, Bool.and_true, Bool.and_comm]
        congr 1
        simp only [bne]
        congr 1
        rcases Nat.decEq kv2.1 pid with hne | heq
        · have h1 : (kv2.1 == pid) = false := by simpa using hne
          have h2 : (pid == kv2.1) = false := by
            simp only [beq_eq_false_iff_ne, ne_eq]
            exact fun hx => hne hx.symm
          rw [h1, h2]
        · have h1 : (kv2.1 == pid) = true := by simpa using heq
          have h2 : (pid == kv2.1) = true := by simpa using heq.symm
          rw [h1, h2]
      · rw [purgeCaptures, release_step_nomatch m obj pid cd hm]
        show (purgeCaptures obj rest m).1 = _
        rw [ih m]
        refine List.filter_congr ?_
        intro kv2 _
        simp only [isMatchedKey, List.any_cons]
        have hcd : (cd.intersection.eventObject == some obj) = false := by
          simpa using hm
        rw [hcd]
        simp

theorem purge_calls_pids (obj : Nat) : ∀ (l : List (Nat × CaptureData)),
    (l.filterMap (fun kv =>
        if kv.2.intersection.eventObject = some obj then
          some (Call.nativeRelease kv.2.domTarget kv.1) else none)).map pidOfRelease
      = (l.filter (fun kv => kv.2.intersection.eventObject == some obj)).map Prod.fst := by
  intro l
  induction l with
  | nil => rfl
  | cons kv rest ih =>
      by_cases hm : kv.2.intersection.eventObject = some obj
      · simp [List.filterMap_cons, List.filter_cons, hm, pidOfRelease, ih]
      · have h1 : (kv.2.intersection.eventObject == some obj) = false := by simpa using hm
        simp [List.filterMap_cons, List.filter_cons, hm, h1, ih]

/-- C8: `removeInteractivity` synchronously purges every trace of the
object: it leaves the interaction set, every hover entry whose `object` or
`eventObject` equals it is deleted, every capture entry whose target equals
it is released, the native `releasePointerCapture` calls are exactly one
per captured pointer whose target is the object (their pointer ids are
pairwise distinct when the capture map's keys are), and if the hover and
capture maps referenced only interaction-set objects before, they still do
afterwards. -/
theorem C8_removeInteractivity_purges (st : Internal) (object : Nat)
    (hkeys : (st.capturedMap.map Prod.fst).Nodup) :
    object ∉ (removeInteractivity st object).2.interaction
    ∧ (∀ kv ∈ (removeInteractivity st object).2.hovered,
        kv.2.eventObject ≠ object ∧ kv.2.object ≠ object)
    ∧ (∀ kv ∈ (removeInteractivity st object).2.capturedMap,
        kv.2.intersection.eventObject ≠ some object)
    ∧ (removeInteractivity st object).1 = st.capturedMap.filterMap (fun kv =>
        if kv.2.intersection.eventObject = some object then
          some (Call.nativeRelease kv.2.domTarget kv.1) else none)
    ∧ (∀ kv ∈ st.capturedMap, kv.2.intersection.eventObject = some object →
        Call.nativeRelease kv.2.domTarget kv.1 ∈ (removeInteractivity st object).1)
    ∧ ((removeInteractivity st object).1.map pidOfRelease).Nodup
    ∧ ((∀ kv ∈ st.hovered,
          kv.2.eventObject ∈ st.interaction ∧ kv.2.object ∈ st.interaction) →
        ∀ kv ∈ (removeInteractivity st object).2.hovered,
          kv.2.eventObject ∈ (removeInteractivity st object).2.interaction
            ∧ kv.2.object ∈ (removeInteractivity st object).2.interaction)
    ∧ ((∀ kv ∈ st.capturedMap, ∀ t,
          kv.2.intersection.eventObject = some t → t ∈ st.interaction) →
        ∀ kv ∈ (removeInteractivity st object).2.capturedMap, ∀ t,
          kv.2.intersection.eventObject = some t →
            t ∈ (removeInteractivity st object).2.interaction) := by
  have hinter : (removeInteractivity st object).2.interaction
      = st.interaction.filter (fun o => o != object) := rfl
  have hhov : (removeInteractivity st object).2.hovered
      = st.hovered.filter (fun kv =>
          !(kv.2.eventObject == object || kv.2.object == object)) := rfl
  have hcap : (removeInteractivity st object).2.capturedMap
      = st.capturedMap.filter (fun kv => !isMatchedKey object st.capturedMap kv.1) := by
    show (purgeCaptures object st.capturedMap st.capturedMap).1 = _
    exact purgeCaptures_map object st.capturedMap st.capturedMap
  have hcalls : (removeInteractivity st object).1 = st.capturedMap.filterMap (fun kv =>
      if kv.2.intersection.eventObject = some object then
        some (Call.nativeRelease kv.2.domTarget kv.1) else none) := by
    show (purgeCaptures object st.capturedMap st.capturedMap).2 = _
    exact purgeCaptures_calls object st.capturedMap st.capturedMap
  have hmem_inter : ∀ o, o ∈ (removeInteractivity st object).2.interaction
      ↔ o ∈ st.interaction ∧ o ≠ object := by
    intro o
    rw [hinter, List.mem_filter]
    constructor
    · rintro ⟨h1, h2⟩
      exact ⟨h1, by simpa using h2⟩
    · rintro ⟨h1, h2⟩
      exact ⟨h1, by simpa using h2⟩
  refine ⟨?_, ?_, ?_, hcalls, ?_, ?_, ?_, ?_⟩
  · intro hx
    exact ((hmem_inter object).mp hx).2 rfl
  · intro kv hkv
    rw [hhov] at hkv
    have h2 := List.of_mem_filter hkv
    simp only [Bool.not_or, Bool.and_eq_true, Bool.not_eq_true', beq_eq_false_iff_ne,
      ne_eq] at h2
    exact h2
  · intro kv hkv hx
    rw [hcap] at hkv
    have h2 := List.of_mem_filter hkv
    have h3 : isMatchedKey object st.capturedMap kv.1 = true := by
      unfold isMatchedKey
      rw [List.any_eq_true]
      exact ⟨kv, List.mem_filter.mp hkv |>.1, by simp [hx]⟩
    rw [h3] at h2
    simp at h2
  · intro kv hkv hx
    rw [hcalls]
    rw [List.mem_filterMap]
    exact ⟨kv, hkv, by rw [if_pos hx]⟩
  · rw [hcalls, purge_calls_pids]
    refine List.Nodup.sublist ?_ hkeys
    exact ((List.filter_sublist st.capturedMap).map Prod.fst)
  · intro hpre kv hkv
    rw [hhov] at hkv
    have h1 := List.mem_filter.mp hkv
    have h2 := hpre kv h1.1
    have h3 := h1.2
    simp only [Bool.not_or, Bool.and_eq_true, Bool.not_eq_true', beq_eq_false_iff_ne,
      ne_eq] at h3
    exact ⟨(hmem_inter kv.2.eventObject).mpr ⟨h2.1, h3.1⟩,
           (hmem_inter kv.2.object).mpr ⟨h2.2, h3.2⟩⟩
  · intro hpre kv hkv t ht
    rw [hcap] at hkv
    have h1 := List.mem_filter.mp hkv
    have h2 := hpre kv h1.1 t ht
    refine (hmem_inter t).mpr ⟨h2, ?_⟩
    intro hto
    have ht2 : kv.2.intersection.eventObject = some object := by
      rw [← hto]
      exact ht
    have h3 : isMatchedKey object st.capturedMap kv.1 = true := by
      unfold isMatchedKey
      rw [List.any_eq_true]
      exact ⟨kv, h1.1, by simp [ht2]⟩
    rw [h3] at h1
    exact Bool.false_ne_true (by simpa using h1.2)

/-- A concrete registry for the C8 witness: objects 0 and 1 registered,
pointer 3 hovering object 0, pointer 5 capturing object 0 with DOM target 9. -/
def cst : Internal :=
  { interaction := [0, 1],
    hovered := [(3, ⟨0, 0, none, none⟩)],
    capturedMap := [(5, ⟨⟨0, some 0, none, none⟩, 9⟩)],
    initialClick := (0, 0),
    initialHit := some 0 }

theorem C8_witness :
    (cst.capturedMap.map Prod.fst).Nodup
    ∧ (removeInteractivity cst 0).1 = [Call.nativeRelease 9 5]
    ∧ (removeInteractivity cst 0).2.hovered = []
    ∧ (removeInteractivity cst 0).2.capturedMap = []
    ∧ (removeInteractivity cst 0).2.interaction = [1] :=
  ⟨by decide,
   ((C8_removeInteractivity_purges cst 0 (by decide)).2.2.2.1).trans (by decide),
   by decide, by decide, by decide⟩

/-! ## Chain and truncation lemmas -/

theorem truncIncl_mem {p : α → Bool} : ∀ (l : List α) (a : α), a ∈ truncIncl p l → a ∈ l := by
  intro l
  induction l with
  | nil => intro a ha; simp [truncIncl] at ha
  | cons x rest ih =>
      intro a ha
      rw [truncIncl] at ha
      by_cases hp : p x = true
      · rw [if_pos hp] at ha
        simp at ha
        simp [ha]
      · rw [if_neg hp] at ha
        rcases List.mem_cons.mp ha with h1 | h2
        · simp [h1]
        · exact List.mem_cons_of_mem x (ih a h2)

theorem truncIncl_all_false {p : α → Bool} : ∀ (l : List α),
    (∀ a ∈ l, p a = false) → truncIncl p l = l := by
  intro l
  induction l with
  | nil => intro _; rfl
  | cons x rest ih =>
      intro hall
      rw [truncIncl, if_neg (by simp [hall x (List.mem_cons_self x rest)])]
      rw [ih (fun a ha => hall a (List.mem_cons_of_mem x ha))]

theorem truncIncl_append {p : α → Bool} : ∀ (pre : List α) (x : α) (post : List α),
    (∀ a ∈ pre, p a = false) → p x = true →
      truncIncl p (pre ++ x :: post) = pre ++ [x] := by
  intro pre
  induction pre with
  | nil =>
      intro x post _ hx
      simp [truncIncl, hx]
  | cons a rest ih =>
      intro x post hall hx
      have ha : p a = false := hall a (List.mem_cons_self a rest)
      rw [List.cons_append, truncIncl, if_neg (by simp [ha])]
      rw [ih x post (fun b hb => hall b (List.mem_cons_of_mem a hb)) hx]
      rfl

theorem phasedChain_atTarget_mem (env : Env) : ∀ (fuel : Nat) (s : Option Nat)
    (ph : Phase) (x : Nat × Phase), x ∈ phasedChain env fuel s ph →
      x.2 = .atTarget → ph = .atTarget ∧ s = some x.1 := by
  intro fuel
  induction fuel with
  | zero => intro s ph x hx; cases s <;> simp [phasedChain] at hx
  | succ f ih =>
      intro s ph x hx hph
      cases s with
      | none => simp [phasedChain] at hx
      | some o =>
          rw [phasedChain] at hx
          rcases List.mem_cons.mp hx with h1 | h2
          · subst h1
            exact ⟨hph, rfl⟩
          · obtain ⟨hcontra, _⟩ := ih (env.parent o) .bubbling x h2 hph
            exact absurd hcontra (by simp)

/-- Delivery lists do not depend on the hover map: each dispatch recreates
its `stopped` flag and reads no hover state inside the loop. -/
theorem bubbleLoop_calls_const (env : Env) (ctx : Ctx) (fuel : Nat) (s : Option Nat)
    (ph : Phase) (hov hov2 : List (Nat × HoverData)) :
    (bubbleLoop env ctx fuel s ph hov).1 = (bubbleLoop env ctx fuel s ph hov2).1 := by
  rw [bubbleLoop_spec, bubbleLoop_spec]

theorem deliveries_stable (env : Env) (ctx : Ctx) (fuel : Nat) (s : Option Nat)
    (ph : Phase) (hchain : iterParent env fuel s = none) :
    ∀ m, fuel ≤ m → deliveries env ctx m s ph = deliveries env ctx fuel s ph := by
  intro m hm
  unfold deliveries deliveredChain
  rw [phasedChain_stable_of_finite_chain env fuel s ph hchain m hm]

/-- C3: with a non-empty intersection list, the bubbling dispatch delivers
the synthesized event exactly along the ancestor chain of the top
intersection's event target: handler-bearing nodes in parent order,
truncated after the first stopping target; only the chain head is visited
at target phase, every other delivery is at bubbling phase; zero-handler
targets receive nothing but the walk advances past them, and with no
stopping handler every handler-bearing ancestor on the chain is delivered;
no object off the chain receives the event, and once the chain reaches the
root, more fuel changes nothing (the walk ends at no-parent or stop). -/
theorem C3_bubbling_delivery (env : Env) (ctx : Ctx) (fuel : Nat) (h : Hit)
    (rest : List Hit) (hov : List (Nat × HoverData))
    (hchain : iterParent env fuel h.eventObject = none) :
    (handleIntersects env ctx fuel (h :: rest) hov).1
        = (deliveries env ctx fuel h.eventObject .atTarget).map
            (fun x => (x.1, x.2, cbCalls env ctx x.1 x.2))
    ∧ (∀ x ∈ (handleIntersects env ctx fuel (h :: rest) hov).1,
        (x.1, x.2.1) ∈ phasedChain env fuel h.eventObject .atTarget
          ∧ eventCountOf env x.1 ≠ 0)
    ∧ (∀ x ∈ (handleIntersects env ctx fuel (h :: rest) hov).1,
        x.2.1 = Phase.atTarget → h.eventObject = some x.1)
    ∧ ((∀ t ph, cbStop env ctx t ph = false) →
        (handleIntersects env ctx fuel (h :: rest) hov).1.map (fun x => (x.1, x.2.1))
          = (phasedChain env fuel h.eventObject .atTarget).filter
              (fun x => eventCountOf env x.1 != 0))
    ∧ (∀ m, fuel ≤ m →
        (handleIntersects env ctx m (h :: rest) hov).1
          = (handleIntersects env ctx fuel (h :: rest) hov).1) := by
  have hbase : (handleIntersects env ctx fuel (h :: rest) hov).1
      = (deliveries env ctx fuel h.eventObject .atTarget).map
          (fun x => (x.1, x.2, cbCalls env ctx x.1 x.2)) := by
    show (bubbleLoop env ctx fuel h.eventObject .atTarget hov).1 = _
    rw [bubbleLoop_spec]
  have hmemchain : ∀ x ∈ (handleIntersects env ctx fuel (h :: rest) hov).1,
      (x.1, x.2.1) ∈ phasedChain env fuel h.eventObject .atTarget
        ∧ eventCountOf env x.1 ≠ 0 := by
    intro x hx
    rw [hbase] at hx
    obtain ⟨y, hy, hyx⟩ := List.mem_map.mp hx
    have hy2 : y ∈ deliveredChain env fuel h.eventObject .atTarget :=
      truncIncl_mem _ y hy
    have hy3 := List.mem_filter.mp hy2
    subst hyx
    refine ⟨hy3.1, ?_⟩
    have := hy3.2
    simpa using this
  refine ⟨hbase, hmemchain, ?_, ?_, ?_⟩
  · intro x hx hph
    obtain ⟨hmem, _⟩ := hmemchain x hx
    exact (phasedChain_atTarget_mem env fuel h.eventObject .atTarget (x.1, x.2.1)
      hmem hph).2
  · intro hnostop
    rw [hbase, List.map_map]
    unfold deliveries
    rw [truncIncl_all_false _ (fun a _ => hnostop a.1 a.2)]
    unfold deliveredChain
    have hcomp : ((fun x : Nat × Phase × List Call => (x.1, x.2.1))
        ∘ (fun x : Nat × Phase => (x.1, x.2, cbCalls env ctx x.1 x.2)))
        = fun x : Nat × Phase => x := rfl
    rw [hcomp]
    exact List.map_id _
  · intro m hm
    have hbase2 : (handleIntersects env ctx m (h :: rest) hov).1
        = (deliveries env ctx m h.eventObject .atTarget).map
            (fun x => (x.1, x.2, cbCalls env ctx x.1 x.2)) := by
      show (bubbleLoop env ctx m h.eventObject .atTarget hov).1 = _
      rw [bubbleLoop_spec]
    rw [hbase, hbase2, deliveries_stable env ctx fuel h.eventObject .atTarget hchain m hm]

/-- C4: if the callback at a bubble target sets the stopped flag, all
handler-bearing chain targets before it are delivered, that target's own
calls are delivered in full (stopping takes effect only after its handlers
ran), nothing after it on the chain is delivered, and the deliveries of any
other dispatch are unaffected — the stopped flag is recreated per dispatch
and no loop state leaks between dispatches. -/
theorem C4_stopPropagation_truncates (env : Env) (ctx : Ctx) (fuel : Nat) (h : Hit)
    (rest : List Hit) (hov : List (Nat × HoverData)) (pre : List (Nat × Phase))
    (tk : Nat) (phk : Phase) (post : List (Nat × Phase))
    (hsplit : deliveredChain env fuel h.eventObject .atTarget
        = pre ++ (tk, phk) :: post)
    (hpre : ∀ x ∈ pre, cbStop env ctx x.1 x.2 = false)
    (hstop : cbStop env ctx tk phk = true) :
    (handleIntersects env ctx fuel (h :: rest) hov).1
        = (pre ++ [(tk, phk)]).map (fun x => (x.1, x.2, cbCalls env ctx x.1 x.2))
    ∧ (handleIntersects env ctx fuel (h :: rest) hov).1.getLast?
        = some (tk, phk, cbCalls env ctx tk phk)
    ∧ (∀ hov2, (handleIntersects env ctx fuel (h :: rest) hov2).1
        = (handleIntersects env ctx fuel (h :: rest) hov).1) := by
  have hbase : (handleIntersects env ctx fuel (h :: rest) hov).1
      = (deliveries env ctx fuel h.eventObject .atTarget).map
          (fun x => (x.1, x.2, cbCalls env ctx x.1 x.2)) := by
    show (bubbleLoop env ctx fuel h.eventObject .atTarget hov).1 = _
    rw [bubbleLoop_spec]
  have hdel : deliveries env ctx fuel h.eventObject .atTarget = pre ++ [(tk, phk)] := by
    unfold deliveries
    rw [hsplit]
    exact truncIncl_append pre (tk, phk) post hpre hstop
  refine ⟨by rw [hbase, hdel], ?_, ?_⟩
  · rw [hbase, hdel, List.map_append]
    simp
  · intro hov2
    exact bubbleLoop_calls_const env ctx fuel h.eventObject .atTarget hov2 hov

/-- A three-node parent chain 0 → 1 → 2 where node 1 carries no handlers,
used to exercise skipping. -/
def env3 : Env :=
  { parent := fun o => if o = 0 then some 1 else if o = 1 then some 2 else none,
    inst := fun o =>
      if o = 0 then some ⟨1, [.onPointerDown]⟩
      else if o = 1 then some ⟨0, []⟩
      else if o = 2 then some ⟨1, [.onPointerDown]⟩
      else none,
    stops := fun _ => false }

/-- A pointer-down dispatch context over an empty interaction snapshot. -/
def ctx3 : Ctx :=
  { name := .onPointerDown, isMove := false, isClick := false, isEnter := false,
    pid := 0, hitObject := 0, hitIndex := none, hitInstanceId := none,
    initialHit := none, interaction := [], afuel := 1 }

/-- The normalized top hit on object 0. -/
def hit3 : Hit := ⟨0, some 0, none, none⟩

theorem C3_witness :
    iterParent env3 4 hit3.eventObject = none
    ∧ (handleIntersects env3 ctx3 4 [hit3] []).1
        = [(0, .atTarget, [Call.handler 0 .onPointerDown .atTarget]),
           (2, .bubbling, [Call.handler 2 .onPointerDown .bubbling])] :=
  ⟨by decide,
   ((C3_bubbling_delivery env3 ctx3 4 hit3 [] [] (by decide)).1).trans (by decide)⟩

/-- The chain 0 → 1 → 2 with handlers everywhere and a stopping handler on
node 1. -/
def env4 : Env :=
  { parent := fun o => if o = 0 then some 1 else if o = 1 then some 2 else none,
    inst := fun o => if o ≤ 2 then some ⟨1, [.onPointerDown]⟩ else none,
    stops := fun o => o == 1 }

theorem C4_witness :
    deliveredChain env4 4 hit3.eventObject .atTarget
        = [(0, .atTarget)] ++ (1, .bubbling) :: [(2, .bubbling)]
    ∧ (handleIntersects env4 ctx3 4 [hit3] []).1
        = [(0, .atTarget, [Call.handler 0 .onPointerDown .atTarget]),
           (1, .bubbling, [Call.handler 1 .onPointerDown .bubbling])] :=
  ⟨by decide,
   ((C4_stopPropagation_truncates env4 ctx3 4 hit3 [] [] [(0, .atTarget)] 1 .bubbling
      [(2, .bubbling)] (by decide) (by decide) (by decide)).1).trans (by decide)⟩

/-! ## Dispatch path lemmas -/

theorem cbHov_not_move (env : Env) (ctx : Ctx) (t : Nat) (ph : Phase)
    (hov : List (Nat × HoverData)) (hm : ctx.isMove = false) :
    cbHov env ctx t ph hov = hov := by
  unfold cbHov
  cases env.inst t with
  | none => rfl
  | some i => simp [hm]

theorem foldl_cbHov_not_move (env : Env) (ctx : Ctx) (hm : ctx.isMove = false) :
    ∀ (l : List (Nat × Phase)) (hov : List (Nat × HoverData)),
      l.foldl (fun h x => cbHov env ctx x.1 x.2 h) hov = hov := by
  intro l
  induction l with
  | nil => intro hov; rfl
  | cons x rest ih =>
      intro hov
      rw [List.foldl_cons, cbHov_not_move env ctx x.1 x.2 hov hm]
      exact ih hov

theorem handleIntersects_hov_not_move (env : Env) (ctx : Ctx) (fuel : Nat)
    (hits : List Hit) (hov : List (Nat × HoverData)) (hm : ctx.isMove = false) :
    (handleIntersects env ctx fuel hits hov).2 = hov := by
  cases hits with
  | nil => rfl
  | cons h rest =>
      show (bubbleLoop env ctx fuel h.eventObject .atTarget hov).2 = hov
      rw [bubbleLoop_spec]
      exact foldl_cbHov_not_move env ctx hm _ hov

theorem pointerMissed_mem (env : Env) (objs : List Nat) (o : Nat) :
    Call.missed o ∈ pointerMissed env objs
      ↔ o ∈ objs ∧ hasHandler env o .onPointerMissed = true := by
  unfold pointerMissed
  rw [List.mem_filterMap]
  constructor
  · rintro ⟨b, hb, hfb⟩
    by_cases hh : hasHandler env b .onPointerMissed = true
    · rw [if_pos hh] at hfb
      have hob : b = o := by
        have := Option.some.inj hfb
        cases this
        rfl
      subst hob
      exact ⟨hb, hh⟩
    · rw [if_neg hh] at hfb
      exact absurd hfb (by simp)
  · rintro ⟨ho, hh⟩
    exact ⟨o, ho, by rw [if_pos hh]⟩

theorem pointerMissed_only_missed (env : Env) (objs : List Nat) (c : Call) :
    c ∈ pointerMissed env objs → ∃ o, c = Call.missed o := by
  unfold pointerMissed
  rw [List.mem_filterMap]
  rintro ⟨b, _, hfb⟩
  by_cases hh : hasHandler env b .onPointerMissed = true
  · rw [if_pos hh] at hfb
    exact ⟨b, (Option.some.inj hfb).symm⟩
  · rw [if_neg hh] at hfb
    exact absurd hfb (by simp)

theorem hasHandler_eq (env : Env) (t : Nat) (i : R3fInstance) (n : EvName)
    (hi : env.inst t = some i) :
    hasHandler env t n = decide (n ∈ i.handlers) := by
  unfold hasHandler
  rw [hi]

theorem cbCalls_not_move (env : Env) (ctx : Ctx) (t : Nat) (ph : Phase)
    (hm : ctx.isMove = false)
    (hcm : ctx.isClick = false ∨ ctx.initialHit = some ctx.hitObject) :
    cbCalls env ctx t ph =
      if eventCountOf env t ≠ 0 ∧ hasHandler env t ctx.name = true then
        pointerMissed env (ctx.interaction.filter
          (fun o => !isAncestorB env ctx.afuel o ctx.initialHit))
          ++ [Call.handler t ctx.name ph]
      else [] := by
  unfold cbCalls
  cases hi : env.inst t with
  | none =>
      have h0 : eventCountOf env t = 0 := by unfold eventCountOf; rw [hi]
      simp [h0]
  | some i =>
      have hec : eventCountOf env t = i.eventCount := by unfold eventCountOf; rw [hi]
      have hhh : hasHandler env t ctx.name = decide (ctx.name ∈ i.handlers) :=
        hasHandler_eq env t i ctx.name hi
      dsimp only
      by_cases h0 : i.eventCount = 0
      · simp [h0, hec]
      · rw [if_neg h0, if_neg (by simp [hm])]
        by_cases hh : ctx.name ∈ i.handlers
        · rw [if_pos hh]
          rcases hcm with hc | hini
          · rw [if_pos (Or.inl (by simp [hc]))]
            rw [if_pos ⟨by simp [hec, h0], by simp [hhh, hh]⟩]
          · rw [if_pos (Or.inr hini)]
            rw [if_pos ⟨by simp [hec, h0], by simp [hhh, hh]⟩]
        · rw [if_neg hh]
          rw [if_neg (by
            rintro ⟨_, hx⟩
            rw [hhh] at hx
            exact hh (by simpa using hx))]

theorem cbCalls_click_mismatch (env : Env) (ctx : Ctx) (t : Nat) (ph : Phase)
    (hm : ctx.isMove = false) (hc : ctx.isClick = true)
    (hmm : ctx.initialHit ≠ some ctx.hitObject) :
    cbCalls env ctx t ph = [] := by
  unfold cbCalls
  cases hi : env.inst t with
  | none => rfl
  | some i =>
      dsimp only
      by_cases h0 : i.eventCount = 0
      · rw [if_pos h0]
      · rw [if_neg h0, if_neg (by simp [hm])]
        by_cases hh : ctx.name ∈ i.handlers
        · rw [if_pos hh]
          rw [if_neg (by
            rintro (hx | hx)
            · rw [hc] at hx
              simp at hx
            · exact hmm hx)]
        · rw [if_neg hh]

theorem cbCalls_move_enter (env : Env) (ctx : Ctx) (t : Nat) (ph : Phase)
    (hm : ctx.isMove = true) (he : ctx.isEnter = true) :
    cbCalls env ctx t ph =
      if eventCountOf env t ≠ 0 then
        (if ph = .atTarget then [Call.hoverSet ctx.pid t] else [])
          ++ (if hasHandler env t .onPointerOver = true then
                [Call.handler t .onPointerOver ph] else [])
          ++ (if hasHandler env t .onPointerEnter = true then
                [Call.handler t .onPointerEnter ph] else [])
      else [] := by
  unfold cbCalls
  cases hi : env.inst t with
  | none =>
      have h0 : eventCountOf env t = 0 := by unfold eventCountOf; rw [hi]
      simp [h0]
  | some i =>
      have hec : eventCountOf env t = i.eventCount := by unfold eventCountOf; rw [hi]
      have hov : hasHandler env t .onPointerOver = decide (.onPointerOver ∈ i.handlers) :=
        hasHandler_eq env t i .onPointerOver hi
      have hen : hasHandler env t .onPointerEnter = decide (.onPointerEnter ∈ i.handlers) :=
        hasHandler_eq env t i .onPointerEnter hi
      dsimp only
      by_cases h0 : i.eventCount = 0
      · simp [h0, hec]
      · rw [if_neg h0, if_pos (by simp [hm]), if_pos (by simp [he])]
        by_cases h1 : EvName.onPointerOver ∈ i.handlers
          <;> by_cases h2 : EvName.onPointerEnter ∈ i.handlers
          <;> simp [h1, h2, hov, hen, hec, h0]

theorem isClickName_facts (n : EvName) (hc : isClickName n = true) :
    (n == EvName.onPointerMove) = false ∧ (n == EvName.onPointerDown) = false := by
  cases n <;> simp_all [isClickName]

theorem recordDown_ne (a : DispatchArgs) (st : Internal) (ev : NativeEvent)
    (hits : List Hit) (hnd : (a.name == EvName.onPointerDown) = false) :
    recordDown a st ev hits = st := by
  unfold recordDown
  rw [hnd]
  rfl

theorem flatten_of_all_nil (l : List α) (f : α → List β) (hf : ∀ x, f x = []) :
    (l.map f).flatten = [] := by
  induction l with
  | nil => rfl
  | cons x rest ih => simp [hf, ih]

theorem handlePointer_shape_not_move (env : Env) (a : DispatchArgs) (st : Internal)
    (ev : NativeEvent)
    (hnm : (a.name == EvName.onPointerMove) = false)
    (hmiss : (isClickName a.name && (dispatchHits a st ev).isEmpty) = false) :
    handlePointer env a st ev
      = (((handleIntersects env
            (dispatchCtx a (recordDown a st ev (dispatchHits a st ev))
              (dispatchHits a st ev) (ev.pointerId.getD 0))
            a.fuel (dispatchHits a st ev)
            (recordDown a st ev (dispatchHits a st ev)).hovered).1.map (·.2.2)).flatten,
         recordDown a st ev (dispatchHits a st ev)) := by
  have hctxm : (dispatchCtx a (recordDown a st ev (dispatchHits a st ev))
      (dispatchHits a st ev) (ev.pointerId.getD 0)).isMove = false := by
    simp [dispatchCtx, hnm]
  have hhov := handleIntersects_hov_not_move env
    (dispatchCtx a (recordDown a st ev (dispatchHits a st ev))
      (dispatchHits a st ev) (ev.pointerId.getD 0))
    a.fuel (dispatchHits a st ev)
    (recordDown a st ev (dispatchHits a st ev)).hovered hctxm
  unfold handlePointer
  simp only [hnm, hmiss, Bool.false_and, Bool.and_self, Bool.false_eq_true, if_false,
    List.nil_append, List.append_nil]
  rw [hhov]

/-- A registry for click gating: object 0 carries `onClick`, object 2
carries `onPointerMissed`, both parentless; the recorded initial hit is the
unrelated object 1. -/
def envC2 : Env :=
  { parent := fun _ => none,
    inst := fun o =>
      if o = 0 then some ⟨1, [.onClick]⟩
      else if o = 2 then some ⟨1, [.onPointerMissed]⟩
      else none,
    stops := fun _ => false }

def stC2 : Internal :=
  { interaction := [0, 2], hovered := [], capturedMap := [],
    initialClick := (0, 0), initialHit := some 1 }

def argsC2 : DispatchArgs :=
  { name := .onClick, rc := fun _ => [⟨0, none, none, none⟩], enabled := true,
    filt := none, distFn := fun _ _ => 0, rootMissed := true, fuel := 4, afuel := 4 }

def evC2 : NativeEvent := ⟨none, 0, 0⟩

/-- C2 counterexample: a click that resolves to a non-empty intersection
list (top hit object 0) while the recorded initial hit is object 1 delivers
nothing at all — in particular no pointer-missed notification reaches
object 2, which is registered, defines `onPointerMissed`, and is not an
ancestor of the initial hit — refuting the claim that a miss is delivered
when the release-time top hit differs from the initial hit. -/
theorem C2_counterexample_no_miss_on_mismatch :
    handlePointer envC2 argsC2 stC2 evC2 = ([], stC2)
    ∧ stC2.initialHit ≠ some 0
    ∧ dispatchHits argsC2 stC2 evC2 = [⟨0, some 0, none, none⟩]
    ∧ hasHandler envC2 2 .onPointerMissed = true
    ∧ isAncestorB envC2 4 2 stC2.initialHit = false := by
  refine ⟨?_, by decide, by decide, by decide, by decide⟩
  decide

/-- C2 amended: for a click-family dispatch with a non-empty intersection
list, the real handlers fire iff the release-time top hit object equals the
recorded initial hit. On a mismatch the dispatch delivers nothing during
bubbling — neither handlers nor pointer-missed notifications. On a match,
at every handler-bearing bubble target the dispatcher first delivers a
pointer-missed notification to every registered object that is not an
ancestor of the initial hit and then invokes the click handler. -/
theorem C2_click_gating (env : Env) (a : DispatchArgs) (st : Internal)
    (ev : NativeEvent) (h : Hit) (hrest : List Hit)
    (hclick : isClickName a.name = true)
    (hhits : dispatchHits a st ev = h :: hrest) :
    (st.initialHit ≠ some h.object → handlePointer env a st ev = ([], st))
    ∧ (st.initialHit = some h.object →
        handlePointer env a st ev
          = (((deliveries env (dispatchCtx a st (h :: hrest) (ev.pointerId.getD 0))
                a.fuel h.eventObject .atTarget).map
              (fun x => cbCalls env (dispatchCtx a st (h :: hrest) (ev.pointerId.getD 0))
                x.1 x.2)).flatten, st)
          ∧ (∀ t ph, eventCountOf env t ≠ 0 →
              cbCalls env (dispatchCtx a st (h :: hrest) (ev.pointerId.getD 0)) t ph
                = if hasHandler env t a.name = true then
                    pointerMissed env (st.interaction.filter
                      (fun o => !isAncestorB env a.afuel o st.initialHit))
                      ++ [Call.handler t a.name ph]
                  else [])) := by
  obtain ⟨hnm, hnd⟩ := isClickName_facts a.name hclick
  have hmiss : (isClickName a.name && (dispatchHits a st ev).isEmpty) = false := by
    rw [hhits]
    simp
  have hshape := handlePointer_shape_not_move env a st ev hnm hmiss
  rw [hhits, recordDown_ne a st ev (h :: hrest) hnd] at hshape
  set ctx := dispatchCtx a st (h :: hrest) (ev.pointerId.getD 0) with hctxdef
  have hcm : ctx.isMove = false := by
    simp [hctxdef, dispatchCtx, hnm]
  have hcc : ctx.isClick = true := by
    simp [hctxdef, dispatchCtx, hclick]
  have hco : ctx.hitObject = h.object := by
    simp [hctxdef, dispatchCtx]
  have hci : ctx.initialHit = st.initialHit := rfl
  have hb : (handleIntersects env ctx a.fuel (h :: hrest) st.hovered).1
      = (deliveries env ctx a.fuel h.eventObject .atTarget).map
          (fun x => (x.1, x.2, cbCalls env ctx x.1 x.2)) := by
    show (bubbleLoop env ctx a.fuel h.eventObject .atTarget st.hovered).1 = _
    rw [bubbleLoop_spec]
  have hcomp : ((fun x : Nat × Phase × List Call => x.2.2)
      ∘ (fun x : Nat × Phase => (x.1, x.2, cbCalls env ctx x.1 x.2)))
      = fun x : Nat × Phase => cbCalls env ctx x.1 x.2 := rfl
  constructor
  · intro hne
    have hnil : ∀ t ph, cbCalls env ctx t ph = [] := by
      intro t ph
      refine cbCalls_click_mismatch env ctx t ph hcm hcc ?_
      rw [hci, hco]
      exact hne
    rw [hshape, hb, List.map_map, hcomp]
    rw [flatten_of_all_nil (deliveries env ctx a.fuel h.eventObject .atTarget)
      (fun x => cbCalls env ctx x.1 x.2) (fun x => hnil x.1 x.2)]
  · intro hme
    refine ⟨?_, ?_⟩
    · rw [hshape, hb, List.map_map, hcomp]
    · intro t ph hec
      rw [cbCalls_not_move env ctx t ph hcm (Or.inr (by rw [hci, hco]; exact hme))]
      have hcn : ctx.name = a.name := rfl
      have hcint : ctx.interaction = st.interaction := rfl
      have hcaf : ctx.afuel = a.afuel := rfl
      rw [hcn, hcint, hcaf, hci]
      by_cases hhh : hasHandler env t a.name = true
      · rw [if_pos ⟨hec, hhh⟩, if_pos hhh]
      · rw [if_neg (by rintro ⟨_, hx⟩; exact hhh hx), if_neg hhh]

theorem C2_witness :
    isClickName EvName.onClick = true
    ∧ dispatchHits argsC2 { stC2 with initialHit := some 0 } evC2
        = [⟨0, some 0, none, none⟩]
    ∧ (handlePointer envC2 argsC2 { stC2 with initialHit := some 0 } evC2).1
        = [Call.missed 2, Call.handler 0 .onClick .atTarget] := by
  refine ⟨by decide, by decide, ?_⟩
  have h2 := (C2_click_gating envC2 argsC2 { stC2 with initialHit := some 0 } evC2
    ⟨0, some 0, none, none⟩ [] (by decide) (by decide)).2 (by decide)
  have h3 := congrArg Prod.fst h2.1
  exact h3.trans (by decide)

theorem isAncestorB_self (env : Env) (fuel : Nat) (o : Nat) (hf : 1 ≤ fuel) :
    isAncestorB env fuel o (some o) = true := by
  obtain ⟨k, rfl⟩ : ∃ k, fuel = k + 1 := ⟨fuel - 1, by omega⟩
  unfold isAncestorB
  rw [isAncestor, if_pos rfl]
  rfl

theorem otherName_facts (n : EvName)
    (hn : n = .onPointerDown ∨ n = .onPointerUp ∨ n = .onWheel) :
    isClickName n = false ∧ (n == EvName.onPointerMove) = false := by
  rcases hn with rfl | rfl | rfl <;> exact ⟨rfl, rfl⟩

/-- C10: for a pointer-down, pointer-up or wheel dispatch, each bubble
target that defines the event's handler first triggers `pointerMissed` —
invoking the `onPointerMissed` handler of every registered object that is
not an ancestor of (and, the ancestor test being reflexive, not equal to)
the recorded initial hit — and only then its own handler; one raw event
therefore delivers one such missed batch per handled bubble target. -/
theorem C10_other_events_missed_first (env : Env) (a : DispatchArgs) (st : Internal)
    (ev : NativeEvent)
    (hn : a.name = .onPointerDown ∨ a.name = .onPointerUp ∨ a.name = .onWheel) :
    handlePointer env a st ev
      = (((handleIntersects env
            (dispatchCtx a (recordDown a st ev (dispatchHits a st ev))
              (dispatchHits a st ev) (ev.pointerId.getD 0))
            a.fuel (dispatchHits a st ev)
            (recordDown a st ev (dispatchHits a st ev)).hovered).1.map (·.2.2)).flatten,
         recordDown a st ev (dispatchHits a st ev))
    ∧ (∀ t ph, eventCountOf env t ≠ 0 →
        cbCalls env (dispatchCtx a (recordDown a st ev (dispatchHits a st ev))
            (dispatchHits a st ev) (ev.pointerId.getD 0)) t ph
          = if hasHandler env t a.name = true then
              pointerMissed env
                ((recordDown a st ev (dispatchHits a st ev)).interaction.filter
                  (fun o => !isAncestorB env a.afuel o
                    (recordDown a st ev (dispatchHits a st ev)).initialHit))
                ++ [Call.handler t a.name ph]
            else [])
    ∧ (∀ io, (recordDown a st ev (dispatchHits a st ev)).initialHit = some io →
        1 ≤ a.afuel →
          Call.missed io ∉ pointerMissed env
            ((recordDown a st ev (dispatchHits a st ev)).interaction.filter
              (fun o => !isAncestorB env a.afuel o
                (recordDown a st ev (dispatchHits a st ev)).initialHit))) := by
  obtain ⟨hnc, hnm⟩ := otherName_facts a.name hn
  have hmiss : (isClickName a.name && (dispatchHits a st ev).isEmpty) = false := by
    rw [hnc]
    rfl
  set st1 := recordDown a st ev (dispatchHits a st ev) with hst1
  set ctx := dispatchCtx a st1 (dispatchHits a st ev) (ev.pointerId.getD 0) with hctxdef
  have hcm : ctx.isMove = false := by
    simp [hctxdef, dispatchCtx, hnm]
  have hcc : ctx.isClick = false := by
    simp [hctxdef, dispatchCtx, hnc]
  refine ⟨handlePointer_shape_not_move env a st ev hnm hmiss, ?_, ?_⟩
  · intro t ph hec
    rw [cbCalls_not_move env ctx t ph hcm (Or.inl hcc)]
    have hcn : ctx.name = a.name := rfl
    have hcint : ctx.interaction = st1.interaction := rfl
    have hcaf : ctx.afuel = a.afuel := rfl
    have hcih : ctx.initialHit = st1.initialHit := rfl
    rw [hcn, hcint, hcaf, hcih]
    by_cases hhh : hasHandler env t a.name = true
    · rw [if_pos ⟨hec, hhh⟩, if_pos hhh]
    · rw [if_neg (by rintro ⟨_, hx⟩; exact hhh hx), if_neg hhh]
  · intro io hio haf hmem
    obtain ⟨hfil, _⟩ := (pointerMissed_mem env _ io).mp hmem
    have hpred := List.of_mem_filter hfil
    rw [hio] at hpred
    rw [isAncestorB_self env a.afuel io haf] at hpred
    simp at hpred

/-- A chain 0 → 1 with pointer-down handlers on both, plus a detached
object 5 defining `onPointerMissed`, for the C10 witness. -/
def env10 : Env :=
  { parent := fun o => if o = 0 then some 1 else none,
    inst := fun o =>
      if o = 0 ∨ o = 1 then some ⟨1, [.onPointerDown]⟩
      else if o = 5 then some ⟨1, [.onPointerMissed]⟩
      else none,
    stops := fun _ => false }

def st10 : Internal :=
  { interaction := [5], hovered := [], capturedMap := [],
    initialClick := (0, 0), initialHit := none }

def args10 : DispatchArgs :=
  { name := .onPointerDown, rc := fun _ => [⟨0, none, none, none⟩], enabled := true,
    filt := none, distFn := fun _ _ => 0, rootMissed := false, fuel := 4, afuel := 4 }

def ev10 : NativeEvent := ⟨some 1, 3, 4⟩

theorem C10_witness :
    (handlePointer env10 args10 st10 ev10).1
        = [Call.missed 5, Call.handler 0 .onPointerDown .atTarget,
           Call.missed 5, Call.handler 1 .onPointerDown .bubbling]
    ∧ (handlePointer env10 args10 st10 ev10).1.count (Call.missed 5) = 2
    ∧ (handlePointer env10 args10 st10 ev10).2.initialHit = some 0 := by
  refine ⟨?_, by decide, by decide⟩
  have h1 := (C10_other_events_missed_first env10 args10 st10 ev10 (Or.inl rfl)).1
  have h2 := congrArg Prod.fst h1
  exact h2.trans (by decide)

/-! ## Capture injection -/

/-- The capture-time intersection on object 5 (capture target 5). -/
def capHit : Hit := ⟨5, some 5, none, none⟩

/-- Registry state where pointer 7 captured object 5 (DOM target 9). -/
def capSt : Internal :=
  { interaction := [5], hovered := [], capturedMap := [(7, ⟨capHit, 9⟩)],
    initialClick := (0, 0), initialHit := none }

/-- A dispatch whose raycaster also hits object 5 live. -/
def capArgs : DispatchArgs :=
  { name := .onPointerDown, rc := fun _ => [⟨5, none, none, none⟩], enabled := true,
    filt := none, distFn := fun _ _ => 0, rootMissed := false, fuel := 4, afuel := 4 }

def capEv : NativeEvent := ⟨some 7, 0, 0⟩

/-- C1 counterexample: the capture intersection is prepended only after the
raycast results were deduplicated, not before. With pointer 7 capturing
object 5 and the live raycast hitting object 5, the dispatch's intersection
list is `[capHit, capHit]` — two records with the same dedup id survive, so
the list is not deduplication-closed, which the claimed
prepend-before-deduplication order would have guaranteed. -/
theorem C1_counterexample_prepend_after_dedup :
    dispatchHits capArgs capSt capEv = [capHit, capHit]
    ∧ dedupHits (dispatchHits capArgs capSt capEv) ≠ dispatchHits capArgs capSt capEv := by
  constructor
  · rfl
  · decide

/-- C1 amended: if the event's pointer has a capture entry, the stored
capture intersection is prepended to the (already deduplicated) raycast
result list before bubbling: it is the head of the dispatch's intersection
list even when the live raycast returns zero hits, the bubble walk starts
at the capture target, and when that target carries handlers it is the
first to receive the event, at target phase. -/
theorem C1_capture_first (env : Env) (a : DispatchArgs) (st : Internal)
    (ev : NativeEvent) (pid : Nat) (cd : CaptureData)
    (hpid : ev.pointerId = some pid)
    (hcap : mapGet st.capturedMap pid = some cd) :
    (∀ base, patchIntersects st ev base = cd.intersection :: base)
    ∧ dispatchHits a st ev
        = cd.intersection :: intersect a.enabled st.interaction a.rc a.filt
    ∧ (dispatchHits a st ev).head? = some cd.intersection
    ∧ (∀ ctx fuel hov, handleIntersects env ctx fuel (dispatchHits a st ev) hov
        = bubbleLoop env ctx fuel cd.intersection.eventObject .atTarget hov)
    ∧ (∀ ctx fuel hov tgt, cd.intersection.eventObject = some tgt →
        eventCountOf env tgt ≠ 0 → 1 ≤ fuel →
          (handleIntersects env ctx fuel (dispatchHits a st ev) hov).1.head?
            = some (tgt, .atTarget, cbCalls env ctx tgt .atTarget)) := by
  have hpatch : ∀ base, patchIntersects st ev base = cd.intersection :: base := by
    intro base
    unfold patchIntersects
    rw [hpid]
    dsimp only
    rw [hcap]
  have hdh : dispatchHits a st ev
      = cd.intersection :: intersect a.enabled st.interaction a.rc a.filt := by
    unfold dispatchHits
    exact hpatch _
  have hhi : ∀ (ctx : Ctx) (fuel : Nat) (hov : List (Nat × HoverData)),
      handleIntersects env ctx fuel (dispatchHits a st ev) hov
        = bubbleLoop env ctx fuel cd.intersection.eventObject .atTarget hov := by
    intro ctx fuel hov
    rw [hdh]
    rfl
  refine ⟨hpatch, hdh, by rw [hdh]; rfl, hhi, ?_⟩
  intro ctx fuel hov tgt htgt hec hf
  obtain ⟨k, rfl⟩ : ∃ k, fuel = k + 1 := ⟨fuel - 1, by omega⟩
  rw [hhi ctx (k + 1) hov, htgt]
  rw [show (bubbleLoop env ctx (k + 1) (some tgt) .atTarget hov).1
      = (deliveries env ctx (k + 1) (some tgt) .atTarget).map
          (fun x => (x.1, x.2, cbCalls env ctx x.1 x.2)) from by rw [bubbleLoop_spec]]
  have hecb : (eventCountOf env tgt != 0) = true := by simpa using hec
  unfold deliveries deliveredChain
  rw [phasedChain, List.filter_cons]
  rw [if_pos hecb]
  rw [truncIncl]
  by_cases hstop : cbStop env ctx tgt .atTarget = true
  · rw [if_pos hstop]
    rfl
  · rw [if_neg hstop]
    rfl

/-- Registry for the C1 witness: object 5 has a pointer-down handler; the
live raycast returns zero hits, yet the captured object receives the
event first. -/
def capEnv : Env :=
  { parent := fun _ => none,
    inst := fun o => if o = 5 then some ⟨1, [.onPointerDown]⟩ else none,
    stops := fun _ => false }

def capArgsEmpty : DispatchArgs :=
  { name := .onPointerDown, rc := fun _ => [], enabled := true,
    filt := none, distFn := fun _ _ => 0, rootMissed := false, fuel := 4, afuel := 4 }

theorem C1_witness :
    mapGet capSt.capturedMap 7 = some ⟨capHit, 9⟩
    ∧ dispatchHits capArgsEmpty capSt capEv = [capHit]
    ∧ (handleIntersects capEnv ctx3 4 (dispatchHits capArgsEmpty capSt capEv) []).1.head?
        = some (5, .atTarget, cbCalls capEnv ctx3 5 .atTarget) := by
  refine ⟨by decide, ?_, ?_⟩
  · have h2 := (C1_capture_first capEnv capArgsEmpty capSt capEv 7 ⟨capHit, 9⟩
      (by decide) (by decide)).2.1
    exact h2.trans (by decide)
  · exact (C1_capture_first capEnv capArgsEmpty capSt capEv 7 ⟨capHit, 9⟩
      (by decide) (by decide)).2.2.2.2 ctx3 4 [] 5 (by decide) (by decide) (by decide)

/-! ## The move path -/

theorem handlePointer_shape_move (env : Env) (a : DispatchArgs) (st : Internal)
    (ev : NativeEvent) (hm : a.name = EvName.onPointerMove) :
    handlePointer env a st ev
      = ((cancelPointer env a.afuel st (ev.pointerId.getD 0) (dispatchHits a st ev)).1
          ++ ((handleIntersects env
                (dispatchCtx a
                  (cancelPointer env a.afuel st (ev.pointerId.getD 0)
                    (dispatchHits a st ev)).2
                  (dispatchHits a st ev) (ev.pointerId.getD 0))
                a.fuel (dispatchHits a st ev)
                (cancelPointer env a.afuel st (ev.pointerId.getD 0)
                  (dispatchHits a st ev)).2.hovered).1.map (·.2.2)).flatten,
        { (cancelPointer env a.afuel st (ev.pointerId.getD 0)
            (dispatchHits a st ev)).2 with
            hovered := (handleIntersects env
                (dispatchCtx a
                  (cancelPointer env a.afuel st (ev.pointerId.getD 0)
                    (dispatchHits a st ev)).2
                  (dispatchHits a st ev) (ev.pointerId.getD 0))
                a.fuel (dispatchHits a st ev)
                (cancelPointer env a.afuel st (ev.pointerId.getD 0)
                  (dispatchHits a st ev)).2.hovered).2 }) := by
  unfold handlePointer recordDown
  rw [hm]
  simp only [show isClickName EvName.onPointerMove = false from rfl,
    show (EvName.onPointerMove == EvName.onPointerDown) = false from rfl,
    show (EvName.onPointerMove == EvName.onPointerMove) = true from rfl,
    Bool.false_and, Bool.false_eq_true, if_false, if_true, List.nil_append]

theorem cancelWalk_only_cancel (env : Env) : ∀ (fuel : Nat) (s : Option Nat)
    (c : Call), c ∈ cancelWalk env fuel s → ∃ o n, c = Call.cancelHandler o n := by
  intro fuel
  induction fuel with
  | zero => intro s c hc; cases s <;> simp [cancelWalk] at hc
  | succ f ih =>
      intro s c hc
      cases s with
      | none => simp [cancelWalk] at hc
      | some o =>
          rw [cancelWalk] at hc
          rcases List.mem_append.mp hc with h1 | h2
          · cases hio : env.inst o with
            | none =>
                rw [hio] at h1
                simp at h1
            | some i =>
                rw [hio] at h1
                dsimp only at h1
                split at h1
                · rcases List.mem_append.mp h1 with h3 | h3
                  · split at h3
                    · simp at h3
                      exact ⟨o, .onPointerOut, h3⟩
                    · simp at h3
                  · split at h3
                    · simp at h3
                      exact ⟨o, .onPointerLeave, h3⟩
                    · simp at h3
                · simp at h1
          · exact ih (env.parent o) c h2

theorem cancelPointer_only_cancel (env : Env) (afuel : Nat) (st : Internal)
    (pid : Nat) (hits : List Hit) (c : Call) :
    c ∈ (cancelPointer env afuel st pid hits).1 → ∃ o n, c = Call.cancelHandler o n := by
  intro hc
  unfold cancelPointer at hc
  cases hhov : mapGet st.hovered pid with
  | none =>
      rw [hhov] at hc
      simp at hc
  | some hov =>
      rw [hhov] at hc
      dsimp only at hc
      split at hc
      · exact cancelWalk_only_cancel env afuel (some hov.object) c hc
      · simp at hc

theorem deliveries_mem_phased (env : Env) (ctx : Ctx) (fuel : Nat) (s : Option Nat)
    (ph : Phase) (x : Nat × Phase) (hx : x ∈ deliveries env ctx fuel s ph) :
    x ∈ phasedChain env fuel s ph ∧ eventCountOf env x.1 ≠ 0 := by
  have h1 := truncIncl_mem _ x hx
  have h2 := List.mem_filter.mp h1
  refine ⟨h2.1, ?_⟩
  have := h2.2
  simpa using this

theorem mem_ite_singleton {α : Type} (P : Prop) [Decidable P] (x c : α)
    (hc : c ∈ (if P then [x] else [])) : c = x := by
  split at hc
  · simpa using hc
  · simp at hc

/-- Objects 0 (child) and 1 (parent): both carry over/enter handlers, the
parent also a move handler. -/
def env7 : Env :=
  { parent := fun o => if o = 0 then some 1 else none,
    inst := fun o =>
      if o = 0 then some ⟨2, [.onPointerOver, .onPointerEnter]⟩
      else if o = 1 then some ⟨3, [.onPointerOver, .onPointerEnter, .onPointerMove]⟩
      else none,
    stops := fun _ => false }

def st7 : Internal :=
  { interaction := [0, 1], hovered := [], capturedMap := [],
    initialClick := (0, 0), initialHit := none }

def args7 : DispatchArgs :=
  { name := .onPointerMove, rc := fun _ => [⟨0, none, none, none⟩], enabled := true,
    filt := none, distFn := fun _ _ => 0, rootMissed := false, fuel := 4, afuel := 4 }

def ev7 : NativeEvent := ⟨some 7, 0, 0⟩

/-- C7 counterexample: a move dispatch entering object 0 (child of 1)
delivers `pointerover` then `pointerenter` to the ancestor 1 as well, at
bubbling phase, and delivers no `pointermove` to it even though 1 defines
a move handler — refuting the claim that over/enter fire only at the
matched target while ancestors receive only move. -/
theorem C7_counterexample_ancestor_gets_enter :
    (handlePointer env7 args7 st7 ev7).1
        = [Call.hoverSet 7 0,
           Call.handler 0 .onPointerOver .atTarget,
           Call.handler 0 .onPointerEnter .atTarget,
           Call.handler 1 .onPointerOver .bubbling,
           Call.handler 1 .onPointerEnter .bubbling]
    ∧ Call.handler 1 .onPointerOver .bubbling ∈ (handlePointer env7 args7 st7 ev7).1
    ∧ Call.handler 1 .onPointerMove .atTarget ∉ (handlePointer env7 args7 st7 ev7).1
    ∧ Call.handler 1 .onPointerMove .bubbling ∉ (handlePointer env7 args7 st7 ev7).1
    ∧ hasHandler env7 1 .onPointerMove = true := by
  refine ⟨?_, by decide, by decide, by decide, by decide⟩
  decide

/-- C7 amended: during a move dispatch that enters a new object, the new
hover entry is recorded only at the at-target visit — any `hoverSet` in
the trace is keyed to the event's pointer and targets exactly the top
intersection's event target — but `pointerover` followed by `pointerenter`
is invoked at every handler-bearing target on the bubble chain, ancestors
included, and no target receives `pointermove` in that dispatch. -/
theorem C7_entering_move_over_enter (env : Env) (a : DispatchArgs) (st : Internal)
    (ev : NativeEvent) (h : Hit) (hrest : List Hit)
    (hm : a.name = EvName.onPointerMove)
    (hhits : dispatchHits a st ev = h :: hrest)
    (henter : (mapGet (cancelPointer env a.afuel st (ev.pointerId.getD 0)
        (h :: hrest)).2.hovered (ev.pointerId.getD 0)).map (·.object)
        ≠ some h.object) :
    (dispatchCtx a (cancelPointer env a.afuel st (ev.pointerId.getD 0)
        (h :: hrest)).2 (h :: hrest) (ev.pointerId.getD 0)).isEnter = true
    ∧ (∀ t ph, eventCountOf env t ≠ 0 →
        cbCalls env (dispatchCtx a (cancelPointer env a.afuel st (ev.pointerId.getD 0)
            (h :: hrest)).2 (h :: hrest) (ev.pointerId.getD 0)) t ph
          = (if ph = .atTarget then [Call.hoverSet (ev.pointerId.getD 0) t] else [])
            ++ (if hasHandler env t .onPointerOver = true then
                  [Call.handler t .onPointerOver ph] else [])
            ++ (if hasHandler env t .onPointerEnter = true then
                  [Call.handler t .onPointerEnter ph] else []))
    ∧ (∀ t ph, Call.handler t .onPointerMove ph ∉ (handlePointer env a st ev).1)
    ∧ (∀ q t, Call.hoverSet q t ∈ (handlePointer env a st ev).1 →
        q = ev.pointerId.getD 0 ∧ h.eventObject = some t) := by
  set pid := ev.pointerId.getD 0 with hpiddef
  set st2 := (cancelPointer env a.afuel st pid (h :: hrest)).2 with hst2def
  set ctx := dispatchCtx a st2 (h :: hrest) pid with hctxdef
  have hMove : ctx.isMove = true := by
    simp [hctxdef, dispatchCtx, hm]
  have hEnter : ctx.isEnter = true := by
    rw [hctxdef]
    simp only [dispatchCtx, hm, beq_self_eq_true, Bool.true_and]
    simpa using henter
  have hpidctx : ctx.pid = pid := rfl
  have hbatch : ∀ t ph, eventCountOf env t ≠ 0 →
      cbCalls env ctx t ph
        = (if ph = .atTarget then [Call.hoverSet pid t] else [])
          ++ (if hasHandler env t .onPointerOver = true then
                [Call.handler t .onPointerOver ph] else [])
          ++ (if hasHandler env t .onPointerEnter = true then
                [Call.handler t .onPointerEnter ph] else []) := by
    intro t ph hec
    rw [cbCalls_move_enter env ctx t ph hMove hEnter, if_pos hec, hpidctx]
  have hshape := handlePointer_shape_move env a st ev hm
  rw [hhits] at hshape
  have hb : (handleIntersects env ctx a.fuel (h :: hrest) st2.hovered).1
      = (deliveries env ctx a.fuel h.eventObject .atTarget).map
          (fun x => (x.1, x.2, cbCalls env ctx x.1 x.2)) := by
    show (bubbleLoop env ctx a.fuel h.eventObject .atTarget st2.hovered).1 = _
    rw [bubbleLoop_spec]
  refine ⟨hEnter, hbatch, ?_, ?_⟩
  · intro t ph hmem
    rw [hshape] at hmem
    rcases List.mem_append.mp hmem with h1m | h2m
    · obtain ⟨o, n, heq⟩ := cancelPointer_only_cancel env a.afuel st pid (h :: hrest) _ h1m
      simp at heq
    · rw [List.mem_flatten] at h2m
      obtain ⟨l, hl, hcl⟩ := h2m
      rw [List.mem_map] at hl
      obtain ⟨y, hy, rfl⟩ := hl
      rw [hb, List.mem_map] at hy
      obtain ⟨x, hx, rfl⟩ := hy
      have hxec := (deliveries_mem_phased env ctx a.fuel h.eventObject .atTarget x hx).2
      rw [hbatch x.1 x.2 hxec] at hcl
      rcases List.mem_append.mp hcl with h3 | h4
      · rcases List.mem_append.mp h3 with h5 | h6
        · have := mem_ite_singleton _ _ _ h5
          simp at this
        · have := mem_ite_singleton _ _ _ h6
          simp at this
      · have := mem_ite_singleton _ _ _ h4
        simp at this
  · intro q t hmem
    rw [hshape] at hmem
    rcases List.mem_append.mp hmem with h1m | h2m
    · obtain ⟨o, n, heq⟩ := cancelPointer_only_cancel env a.afuel st pid (h :: hrest) _ h1m
      simp at heq
    · rw [List.mem_flatten] at h2m
      obtain ⟨l, hl, hcl⟩ := h2m
      rw [List.mem_map] at hl
      obtain ⟨y, hy, rfl⟩ := hl
      rw [hb, List.mem_map] at hy
      obtain ⟨x, hx, rfl⟩ := hy
      obtain ⟨hxc, hxec⟩ := deliveries_mem_phased env ctx a.fuel h.eventObject .atTarget x hx
      rw [hbatch x.1 x.2 hxec] at hcl
      rcases List.mem_append.mp hcl with h3 | h4
      · rcases List.mem_append.mp h3 with h5 | h6
        · by_cases hph : x.2 = Phase.atTarget
          · rw [if_pos hph] at h5
            simp at h5
            obtain ⟨hq, ht⟩ := h5
            subst hq
            subst ht
            refine ⟨rfl, ?_⟩
            exact (phasedChain_atTarget_mem env a.fuel h.eventObject .atTarget
              (x.1, x.2) (by simpa using hxc) hph).2
          · rw [if_neg hph] at h5
            simp at h5
        · have := mem_ite_singleton _ _ _ h6
          simp at this
      · have := mem_ite_singleton _ _ _ h4
        simp at this

theorem C7_witness :
    dispatchHits args7 st7 ev7 = [⟨0, some 0, none, none⟩]
    ∧ (dispatchCtx args7 (cancelPointer env7 args7.afuel st7 (ev7.pointerId.getD 0)
          [⟨0, some 0, none, none⟩]).2 [⟨0, some 0, none, none⟩]
          (ev7.pointerId.getD 0)).isEnter = true
    ∧ (∀ t ph, Call.handler t .onPointerMove ph ∉ (handlePointer env7 args7 st7 ev7).1) := by
  refine ⟨by decide, ?_, ?_⟩
  · exact (C7_entering_move_over_enter env7 args7 st7 ev7 ⟨0, some 0, none, none⟩ []
      rfl (by decide) (by decide)).1
  · exact (C7_entering_move_over_enter env7 args7 st7 ev7 ⟨0, some 0, none, none⟩ []
      rfl (by decide) (by decide)).2.2.1
